import Mathlib

/-!
Live-stream relay of `internal/kubernetes/agent.go`.

A shallow embedding of `Agent.GetPodLogs` and `Agent.StreamControllerStatus`.
Both functions start goroutines that talk over an unbuffered channel, so each
is embedded as a small-step machine: every goroutine has a program counter
(named after the source line it stands at), a step of one goroutine executes
one statement, and a run is a list of goroutines to step in turn (a goroutine
that is blocked, finished or not yet started does not move).  The pod log
stream, the websocket peer and the informer notifications are inputs.
-/

namespace Porter

/-! ## Go values -/

/-- A Go `error` value that is not nil; `io.EOF` is singled out because the
log pump compares against it. A nil error is `none : Option GoErr`. -/
inductive GoErr where
  | EOF
  | other (text : String)
  deriving DecidableEq, Repr

abbrev Byte := Nat

/-- The byte `'\n'`. -/
def newline : Byte := 10

/-- The fields of `v1.PodLogOptions` that `GetPodLogs` sets. -/
structure PodLogOptions where
  Follow : Bool
  TailLines : Option Int
  deriving DecidableEq, Repr

/-- One call of `Pods(namespace).GetLogs(name, &podLogOpts)` followed by `Stream`. -/
structure LogRequest where
  ns : String
  name : String
  opts : PodLogOptions
  deriving DecidableEq, Repr

/-- How the pod log stream behaves once its bytes are used up: its `Read`
returns the error `e` (`io.EOF` at the end of the stream), or the stream stays
open without further data (a followed pod that logs nothing more). -/
inductive StreamEnd where
  | ended (e : GoErr)
  | pending
  deriving DecidableEq, Repr

/-- The error a `Read` returns once `podLogs.Close()` has been called. -/
def errStreamClosed : GoErr := GoErr.other "read on closed body"

/-- The error a websocket write returns once `conn.Close()` has been called. -/
def errConnClosed : GoErr := GoErr.other "use of closed network connection"

/-- The value of `fmt.Errorf("Cannot open log stream for pod %s", name)`. -/
def errCannotOpen (name : String) : GoErr :=
  GoErr.other ("Cannot open log stream for pod " ++ name)

/-- The scripted result of the i-th write on a connection: the i-th entry of
`wr`, success beyond its end. -/
def resultAt (wr : List (Option GoErr)) (i : Nat) : Option GoErr :=
  wr.getD i none

/-! ## bufio.Reader.ReadBytes -/

/-- Splits the unread bytes after the first occurrence of `delim`:
`some (line, rest)` with `line` ending in `delim`, or `none` when `delim`
does not occur. -/
def splitDelim (delim : Byte) : List Byte → Option (List Byte × List Byte)
  | [] => none
  | b :: bs =>
    if b = delim then some ([b], bs)
    else match splitDelim delim bs with
      | some (l, r) => some (b :: l, r)
      | none => none

/-- The call `r.ReadBytes(delim)` on a reader with unread bytes `rd` over a
stream that behaves as `term` afterwards: `some (bytes, err, rest)` when the
call returns, `none` when it blocks. It returns the data up to and including
the delimiter; when the stream ends or fails first it returns the data read
before that together with the error. -/
def ReadBytes (delim : Byte) (rd : List Byte) (term : StreamEnd) (closed : Bool) :
    Option (List Byte × Option GoErr × List Byte) :=
  match splitDelim delim rd with
  | some (l, r) => some (l, none, r)
  | none =>
    match term with
    | .ended e => some (rd, some e, [])
    | .pending => if closed then some (rd, some errStreamClosed, []) else none

/-! ## GetPodLogs -/

/-- The goroutines of `GetPodLogs`: the caller, the close watcher (lines
111-121) and the pump (lines 123-145). -/
inductive Task where
  | main
  | watcher
  | pump
  deriving DecidableEq, Repr

/-- The inputs of one `GetPodLogs` session. -/
structure LogEnv where
  /-- What `req.Stream` returns for a request: an error, or a stream given by
  its bytes and its behaviour after them. -/
  openStream : LogRequest → Except GoErr (List Byte × StreamEnd)
  /-- The number of client messages `conn.ReadMessage` returns before it
  behaves as `recvEnd`. -/
  recvMsgs : Nat
  /-- The error `conn.ReadMessage` returns after `recvMsgs` messages (a close
  frame included); `none` when the client never closes, so the call blocks. -/
  recvEnd : Option GoErr
  /-- The result of the i-th `conn.WriteMessage` on the open connection
  (`none` = success); writes beyond the list succeed. -/
  writeRes : List (Option GoErr)

/-- Program counter of the caller of `GetPodLogs`. -/
inductive MainPc where
  /-- Line 94, nothing executed yet. -/
  | entry
  /-- Line 149, `err = <-errorchan`. -/
  | recv
  /-- Line 150, `return err`, the deferred `podLogs.Close()` still to run. -/
  | ret (v : Option GoErr)
  /-- Returned `v`. -/
  | done (v : Option GoErr)
  deriving DecidableEq, Repr

/-- Program counter of the close watcher, lines 111-121. -/
inductive WatcherPc where
  /-- The goroutine has not been started. -/
  | idle
  /-- Line 114, `conn.ReadMessage()`. -/
  | read
  /-- Line 115, `conn.Close()`. -/
  | close
  /-- Line 116, about to execute `errorchan <- nil`. -/
  | send
  /-- Line 116, blocked in the send. -/
  | parked
  /-- Line 117, `fmt.Println`. -/
  | print
  | done
  deriving DecidableEq, Repr

/-- Program counter of the pump, lines 123-145. -/
inductive PumpPc where
  /-- The goroutine has not been started. -/
  | idle
  /-- Line 125, the non-blocking `select`. -/
  | select
  /-- Lines 127-128, returning with the deferred `close(errorchan)` to run. -/
  | deferClose
  /-- Line 131, `r.ReadBytes('\n')`. -/
  | read
  /-- Line 132, `conn.WriteMessage(websocket.TextMessage, bytes)`. -/
  | write (bytes : List Byte) (err : Option GoErr)
  /-- Lines 133, 138, 141, about to execute `errorchan <- v`. -/
  | send (v : Option GoErr)
  /-- Blocked in that send. -/
  | parked (v : Option GoErr)
  | done
  deriving DecidableEq, Repr

/-- The state of one `GetPodLogs` session. -/
structure LogState where
  main : MainPc
  watcher : WatcherPc
  pump : PumpPc
  /-- Goroutines blocked in a send on `errorchan`, oldest first, with the value. -/
  sendq : List (Task × Option GoErr)
  chanClosed : Bool
  /-- The panic raised, if any. A panic in a goroutine ends the process, so
  nothing moves afterwards. -/
  crashed : Option String
  /-- Bytes of the log stream not yet consumed by the reader. -/
  rd : List Byte
  term : StreamEnd
  /-- Every request made to open a log stream. -/
  opens : List LogRequest
  /-- Number of `podLogs.Close()` calls. -/
  streamCloses : Nat
  /-- Number of `conn.ReadMessage` calls that returned. -/
  connReads : Nat
  /-- Number of `conn.Close()` calls. -/
  connCloses : Nat
  /-- Payload of every `conn.WriteMessage` call, in order. -/
  attempts : List (List Byte)
  /-- Payload of every `conn.WriteMessage` call that succeeded, in order. -/
  written : List (List Byte)
  /-- Lines printed to standard output. -/
  printed : List String
  deriving DecidableEq, Repr

/-- The state when `GetPodLogs` is called. -/
def LogState.init : LogState :=
  { main := .entry, watcher := .idle, pump := .idle, sendq := [], chanClosed := false,
    crashed := none, rd := [], term := .pending, opens := [], streamCloses := 0,
    connReads := 0, connCloses := 0, attempts := [], written := [], printed := [] }

/-- A goroutine whose send on `errorchan` was taken continues after the send. -/
def LogState.resume (s : LogState) : Task → LogState
  | .watcher => { s with watcher := .print }
  | .pump => { s with pump := .done }
  | .main => s

/-- A receive on `errorchan`: the value of the oldest blocked sender, which
then continues; the zero value when the channel is closed; `none` when the
receive would block. -/
def LogState.chanRecv (s : LogState) : Option (Option GoErr × LogState) :=
  match s.sendq with
  | (t, v) :: q => some (v, ({ s with sendq := q }).resume t)
  | [] => if s.chanClosed then some (none, s) else none

/-- The statement `errorchan <- v` of goroutine `t`: a panic on a closed channel,
otherwise the goroutine blocks until a receiver takes the value. -/
def LogState.chanSend (s : LogState) (t : Task) (v : Option GoErr) : LogState :=
  if s.chanClosed then { s with crashed := some "send on closed channel" }
  else
    let s1 := { s with sendq := s.sendq ++ [(t, v)] }
    match t with
    | .watcher => { s1 with watcher := .parked }
    | .pump => { s1 with pump := .parked v }
    | .main => s1

/-- The call `close(errorchan)`: a panic when already closed; blocked senders panic. -/
def LogState.chanClose (s : LogState) : LogState :=
  if s.chanClosed then { s with crashed := some "close of closed channel" }
  else if s.sendq = [] then { s with chanClosed := true }
  else { s with chanClosed := true, crashed := some "send on closed channel" }

/-- The call `conn.WriteMessage(websocket.TextMessage, msg)`. -/
def LogState.connWrite (env : LogEnv) (s : LogState) (msg : List Byte) :
    Option GoErr × LogState :=
  let r := if 0 < s.connCloses then some errConnClosed
           else resultAt env.writeRes s.attempts.length
  (r, { s with attempts := s.attempts ++ [msg],
               written := if r = none then s.written ++ [msg] else s.written })

/-- One step of the caller. -/
def stepMain (env : LogEnv) (ns name : String) (s : LogState) : LogState :=
  match s.main with
  | .entry =>
    -- lines 96-102
    let req : LogRequest := { ns := ns, name := name,
                              opts := { Follow := true, TailLines := some 30 } }
    let s1 := { s with opens := s.opens ++ [req] }
    match env.openStream req with
    | .error _ =>
      -- lines 103-105
      { s1 with main := .done (some (errCannotOpen name)) }
    | .ok (bytes, term) =>
      -- lines 106-145: the reader, the channel and the two goroutines
      { s1 with rd := bytes, term := term, watcher := .read, pump := .select, main := .recv }
  | .recv =>
    match s.chanRecv with
    | some (v, s1) => { s1 with main := .ret v }
    | none => s
  | .ret v => { s with streamCloses := s.streamCloses + 1, main := .done v }
  | .done _ => s

/-- One step of the close watcher. -/
def stepWatcher (env : LogEnv) (s : LogState) : LogState :=
  match s.watcher with
  | .idle => s
  | .read =>
    if s.connReads < env.recvMsgs then { s with connReads := s.connReads + 1 }
    else match env.recvEnd with
      | some _ => { s with connReads := s.connReads + 1, watcher := .close }
      | none => s
  | .close => { s with connCloses := s.connCloses + 1, watcher := .send }
  | .send => s.chanSend .watcher none
  | .parked => s
  | .print => { s with printed := s.printed ++ ["Successfully closed log stream"],
                       watcher := .done }
  | .done => s

/-- One step of the pump. -/
def stepPump (env : LogEnv) (s : LogState) : LogState :=
  match s.pump with
  | .idle => s
  | .select =>
    match s.chanRecv with
    | some (_, s1) => { s1 with pump := .deferClose }
    | none => { s with pump := .read }
  | .deferClose => { s.chanClose with pump := .done }
  | .read =>
    match ReadBytes newline s.rd s.term (decide (0 < s.streamCloses)) with
    | some (bytes, err, rest) => { s with rd := rest, pump := .write bytes err }
    | none => s
  | .write bytes err =>
    match s.connWrite env bytes with
    | (some writeErr, s1) => { s1 with pump := .send (some writeErr) }
    | (none, s1) =>
      match err with
      | some e => if e ≠ GoErr.EOF then { s1 with pump := .send (some e) }
                  else { s1 with pump := .send none }
      | none => { s1 with pump := .select }
  | .send v => s.chanSend .pump v
  | .parked _ => s
  | .done => s

/-- One step of goroutine `t`; nothing moves after a panic. -/
def stepLog (env : LogEnv) (ns name : String) (s : LogState) (t : Task) : LogState :=
  if s.crashed.isSome then s
  else match t with
    | .main => stepMain env ns name s
    | .watcher => stepWatcher env s
    | .pump => stepPump env s

/-- The session `GetPodLogs(ns, name, conn)` under the schedule `sched`. -/
def GetPodLogs (env : LogEnv) (ns name : String) (sched : List Task) : LogState :=
  sched.foldl (stepLog env ns name) LogState.init

/-- What `GetPodLogs` returned, if it has returned. -/
def LogState.returned (s : LogState) : Option (Option GoErr) :=
  match s.main with
  | .done v => some v
  | _ => none

/-! ## StreamControllerStatus -/

/-- An opaque resource snapshot (`interface{}` in the source). -/
abbrev Obj := String

/-- The struct `Message` sent to the client as JSON. -/
structure Message where
  EventType : String
  Object : Obj
  Kind : String
  deriving DecidableEq, Repr

/-- The call `strings.ToLower(s)` on a valid UTF-8 string: ASCII capitals are
mapped to their small letters; `tbl` stands for `unicode.ToLower` on the
characters outside ASCII. -/
def ToLower (tbl : Char → Char) (s : String) : String :=
  String.mk (s.data.map (fun c => if c.toNat < 128 then c.toLower else tbl c))

/-- The four informers of the shared informer factory that the `switch` of
lines 165-174 chooses from. -/
inductive InformerKind where
  | Deployments
  | StatefulSets
  | ReplicaSets
  | DaemonSets
  deriving DecidableEq, Repr

/-- The `switch` of lines 165-174 on the lower-cased kind; `none` is the nil
`informer` left by a kind that matches no case. -/
def selectInformer (lowered : String) : Option InformerKind :=
  if lowered = "deployment" then some .Deployments
  else if lowered = "statefulset" then some .StatefulSets
  else if lowered = "replicaset" then some .ReplicaSets
  else if lowered = "daemonset" then some .DaemonSets
  else none

/-- A notification of the informer to its event handlers. -/
inductive Notification where
  | add (obj : Obj)
  | update (oldObj newObj : Obj)
  | delete (obj : Obj)
  deriving DecidableEq, Repr

/-- The inputs of one `StreamControllerStatus` session. -/
structure StatusEnv where
  /-- The table of `unicode.ToLower` outside ASCII. -/
  lowerTable : Char → Char
  /-- The notifications the informer has for its handlers, in order. -/
  nots : List Notification
  /-- The number of client messages `conn.ReadMessage` returns before it
  behaves as `recvEnd`. -/
  recvMsgs : Nat
  /-- The error `conn.ReadMessage` returns after `recvMsgs` messages (a close
  frame included); `none` when the client never closes, so the call blocks. -/
  recvEnd : Option GoErr
  /-- The result of the i-th `conn.WriteJSON` on the open connection
  (`none` = success); writes beyond the list succeed. -/
  writeRes : List (Option GoErr)

/-- The moves of a `StreamControllerStatus` session: a statement of the
caller, of the close watcher (lines 194-205) or of the informer goroutine
(line 207, which runs the handler of lines 181-191), and the informer
noticing that its stop channel is closed. -/
inductive Move where
  | main
  | watcher
  | informer
  | informerStop
  deriving DecidableEq, Repr

/-- Program counter of the caller of `StreamControllerStatus`. -/
inductive SMainPc where
  /-- Line 157, nothing executed yet. -/
  | entry
  /-- Line 211, `err := <-errorchan`. -/
  | recv
  /-- Line 212, `return err`, the deferred `close(errorchan)` still to run. -/
  | ret (v : Option GoErr)
  /-- Returned `v`. -/
  | done (v : Option GoErr)
  deriving DecidableEq, Repr

/-- Program counter of the close watcher, lines 194-205. The deferred calls
run in reverse order once the goroutine returns or panics; `panicking` tells
which. -/
inductive SWatcherPc where
  /-- The goroutine has not been started. -/
  | idle
  /-- Line 197, `conn.ReadMessage()`. -/
  | read
  /-- Line 201, about to execute `errorchan <- nil`. -/
  | send
  /-- Line 201, blocked in the send. -/
  | parked
  /-- Line 200, the deferred `fmt.Println`. -/
  | deferPrint (panicking : Bool)
  /-- Line 199, the deferred `close(stopper)`. -/
  | deferStop (panicking : Bool)
  /-- Line 198, the deferred `conn.Close()`. -/
  | deferClose (panicking : Bool)
  | done
  deriving DecidableEq, Repr

/-- Program counter of the informer goroutine. -/
inductive InformerPc where
  /-- The goroutine has not been started. -/
  | idle
  /-- Running, between two notifications. -/
  | run
  /-- Line 188 in the handler, about to execute `errorchan <- writeErr`. -/
  | send (v : Option GoErr)
  /-- Blocked in that send. -/
  | parked (v : Option GoErr)
  /-- `informer.Run` has ended. -/
  | stopped
  deriving DecidableEq, Repr

/-- The state of one `StreamControllerStatus` session. -/
structure StatusState where
  main : SMainPc
  watcher : SWatcherPc
  informer : InformerPc
  /-- The informer the `switch` selected. -/
  selected : Option InformerKind
  /-- Number of `AddEventHandler` calls that registered a handler. -/
  handlers : Nat
  /-- Goroutines blocked in a send on `errorchan`, oldest first, with the value. -/
  sendq : List (Move × Option GoErr)
  chanClosed : Bool
  /-- The panic raised, if any. A panic in the watcher or in the handler ends
  the process; the caller panics only before it has started a goroutine. Either
  way nothing moves afterwards. -/
  crashed : Option String
  /-- Number of notifications the informer has handed to the handlers. -/
  delivered : Nat
  /-- Number of `close(stopper)` calls. -/
  stopCloses : Nat
  /-- Number of `conn.ReadMessage` calls that returned. -/
  connReads : Nat
  /-- Number of `conn.Close()` calls. -/
  connCloses : Nat
  /-- The message of every `conn.WriteJSON` call, in order. -/
  attempts : List Message
  /-- The message of every `conn.WriteJSON` call that succeeded, in order. -/
  written : List Message
  /-- Lines printed to standard output. -/
  printed : List String
  deriving DecidableEq, Repr

/-- The state when `StreamControllerStatus` is called. -/
def StatusState.init : StatusState :=
  { main := .entry, watcher := .idle, informer := .idle, selected := none, handlers := 0,
    sendq := [], chanClosed := false, crashed := none, delivered := 0, stopCloses := 0,
    connReads := 0, connCloses := 0, attempts := [], written := [], printed := [] }

/-- A goroutine whose send on `errorchan` was taken continues after the send:
the watcher returns and runs its deferred calls, the handler returns to the
informer. -/
def StatusState.resume (s : StatusState) : Move → StatusState
  | .watcher => { s with watcher := .deferPrint false }
  | .informer => { s with informer := .run }
  | _ => s

/-- A receive on `errorchan`: the value of the oldest blocked sender, which
then continues; the zero value when the channel is closed; `none` when the
receive would block. -/
def StatusState.chanRecv (s : StatusState) : Option (Option GoErr × StatusState) :=
  match s.sendq with
  | (t, v) :: q => some (v, ({ s with sendq := q }).resume t)
  | [] => if s.chanClosed then some (none, s) else none

/-- The call `close(errorchan)`: a panic when already closed. A goroutine
blocked in a send panics: the handler inside the informer ends the process,
the watcher first runs its deferred calls. -/
def StatusState.chanClose (s : StatusState) : StatusState :=
  if s.chanClosed then { s with crashed := some "close of closed channel" }
  else
    let s1 := { s with chanClosed := true, sendq := [] }
    match s.informer, s.watcher with
    | .parked _, _ => { s1 with crashed := some "send on closed channel" }
    | _, .parked => { s1 with watcher := .deferPrint true }
    | _, _ => s1

/-- The message built on lines 182-186 for an update to `newObj`. -/
def updateMessage (tbl : Char → Char) (kind : String) (newObj : Obj) : Message :=
  { EventType := "UPDATE", Object := newObj, Kind := ToLower tbl kind }

/-- The call `conn.WriteJSON(msg)`. -/
def StatusState.connWrite (env : StatusEnv) (s : StatusState) (msg : Message) :
    Option GoErr × StatusState :=
  let r := if 0 < s.connCloses then some errConnClosed
           else resultAt env.writeRes s.attempts.length
  (r, { s with attempts := s.attempts ++ [msg],
               written := if r = none then s.written ++ [msg] else s.written })

/-- One step of the caller. -/
def stepSMain (env : StatusEnv) (kind : String) (s : StatusState) : StatusState :=
  match s.main with
  | .entry =>
    -- lines 158-174
    match selectInformer (ToLower env.lowerTable kind) with
    | none =>
      -- line 180, a method call on the nil informer; the panic runs the
      -- deferred `close(errorchan)` of line 178
      { s with chanClosed := true,
               crashed := some "invalid memory address or nil pointer dereference" }
    | some i =>
      -- lines 176-207
      { s with selected := some i, handlers := s.handlers + 1, watcher := .read,
               informer := .run, main := .recv }
  | .recv =>
    match s.chanRecv with
    | some (v, s1) => { s1 with main := .ret v }
    | none => s
  | .ret v => { s.chanClose with main := .done v }
  | .done _ => s

/-- One step of the close watcher. -/
def stepSWatcher (env : StatusEnv) (s : StatusState) : StatusState :=
  match s.watcher with
  | .idle => s
  | .read =>
    if s.connReads < env.recvMsgs then { s with connReads := s.connReads + 1 }
    else match env.recvEnd with
      | some _ => { s with connReads := s.connReads + 1, watcher := .send }
      | none => s
  | .send =>
    if s.chanClosed then { s with watcher := .deferPrint true }
    else { s with sendq := s.sendq ++ [(Move.watcher, none)], watcher := .parked }
  | .parked => s
  | .deferPrint p =>
    { s with printed := s.printed ++ ["Successfully closed controller status stream"],
             watcher := .deferStop p }
  | .deferStop p =>
    if 0 < s.stopCloses then { s with crashed := some "close of closed channel" }
    else { s with stopCloses := s.stopCloses + 1, watcher := .deferClose p }
  | .deferClose p =>
    let s1 := { s with connCloses := s.connCloses + 1, watcher := .done }
    if p then { s1 with crashed := some "send on closed channel" } else s1
  | .done => s

/-- One step of the informer goroutine: the next notification goes to the
registered handlers, of which only `UpdateFunc` is set (lines 181-191). -/
def stepInformer (env : StatusEnv) (kind : String) (s : StatusState) : StatusState :=
  match s.informer with
  | .idle => s
  | .run =>
    match env.nots.get? s.delivered with
    | none => s
    | some (.add _) => { s with delivered := s.delivered + 1 }
    | some (.delete _) => { s with delivered := s.delivered + 1 }
    | some (.update _ newObj) =>
      match ({ s with delivered := s.delivered + 1 }).connWrite env
              (updateMessage env.lowerTable kind newObj) with
      | (some writeErr, s1) => { s1 with informer := .send (some writeErr) }
      | (none, s1) => s1
  | .send v =>
    if s.chanClosed then { s with crashed := some "send on closed channel" }
    else { s with sendq := s.sendq ++ [(Move.informer, v)], informer := .parked v }
  | .parked _ => s
  | .stopped => s

/-- The informer, between two notifications, notices the closed stop channel. -/
def stepInformerStop (s : StatusState) : StatusState :=
  match s.informer with
  | .run => if 0 < s.stopCloses then { s with informer := .stopped } else s
  | _ => s

/-- One move; nothing moves after a panic. -/
def stepStatus (env : StatusEnv) (kind : String) (s : StatusState) (t : Move) : StatusState :=
  if s.crashed.isSome then s
  else match t with
    | .main => stepSMain env kind s
    | .watcher => stepSWatcher env s
    | .informer => stepInformer env kind s
    | .informerStop => stepInformerStop s

/-- The session `StreamControllerStatus(conn, kind)` under the schedule `sched`. -/
def StreamControllerStatus (env : StatusEnv) (kind : String) (sched : List Move) :
    StatusState :=
  sched.foldl (stepStatus env kind) StatusState.init

/-- What `StreamControllerStatus` returned, if it has returned. -/
def StatusState.returned (s : StatusState) : Option (Option GoErr) :=
  match s.main with
  | .done v => some v
  | _ => none

/-! ## The pump on its own -/

/-- The results `(bytes, err)` of the successive `r.ReadBytes('\n')` calls on a
stream that is never closed under the reader: one per complete line, then the
bytes before the end with the error that ended the stream (nothing more when
the stream stays open). -/
def reads (term : StreamEnd) : List Byte → List (List Byte × Option GoErr)
  | [] =>
    match term with
    | .ended e => [([], some e)]
    | .pending => []
  | b :: bs =>
    if b = newline then ([b], none) :: reads term bs
    else match reads term bs with
      | (c, r) :: rest => (b :: c, r) :: rest
      | [] => []

/-- The newline-delimited chunks of a byte sequence: every complete line with
its newline, then the bytes after the last newline (an empty chunk when the
sequence is empty or ends in a newline). -/
def chunks : List Byte → List (List Byte)
  | [] => [[]]
  | b :: bs =>
    if b = newline then [b] :: chunks bs
    else match chunks bs with
      | c :: rest => (b :: c) :: rest
      | [] => [[b]]

/-- The loop of lines 124-144 run on the read results `rs` with the i-th and
later write results of `wr`: the payloads it passes to `WriteMessage`, those
that are delivered, and the value it sends on `errorchan` (`none` when it
blocks in a read instead). -/
def pumpLoop (wr : List (Option GoErr)) :
    Nat → List (List Byte × Option GoErr) →
      List (List Byte) × List (List Byte) × Option (Option GoErr)
  | _, [] => ([], [], none)
  | i, (b, err) :: rest =>
    match resultAt wr i with
    | some w => ([b], [], some (some w))
    | none =>
      match err with
      | some e => ([b], [b], some (if e ≠ GoErr.EOF then some e else none))
      | none => (b :: (pumpLoop wr (i + 1) rest).1, b :: (pumpLoop wr (i + 1) rest).2.1,
                 (pumpLoop wr (i + 1) rest).2.2)

/-- The pump loop continued from state `s` on the read results `rs`. -/
def LogState.continued (env : LogEnv) (s : LogState) (rs : List (List Byte × Option GoErr)) :
    List (List Byte) × List (List Byte) × Option (Option GoErr) :=
  (s.attempts ++ (pumpLoop env.writeRes s.attempts.length rs).1,
   s.written ++ (pumpLoop env.writeRes s.attempts.length rs).2.1,
   (pumpLoop env.writeRes s.attempts.length rs).2.2)

/-- What holds of every state of a session whose stream `(data, term)` opened
and whose client never closes: the watcher only reads, the channel stays open,
and the pump stands somewhere on its loop over the read results. -/
def InvNoClose (env : LogEnv) (data : List Byte) (term : StreamEnd) (s : LogState) : Prop :=
  s.crashed = none ∧ s.chanClosed = false ∧ s.connCloses = 0 ∧
  match s.main, s.pump with
  | .entry, _ => s = LogState.init
  | .recv, .select =>
    s.watcher = .read ∧ s.sendq = [] ∧ s.term = term ∧ s.streamCloses = 0
    ∧ s.continued env (reads term s.rd) = pumpLoop env.writeRes 0 (reads term data)
  | .recv, .read =>
    s.watcher = .read ∧ s.sendq = [] ∧ s.term = term ∧ s.streamCloses = 0
    ∧ s.continued env (reads term s.rd) = pumpLoop env.writeRes 0 (reads term data)
  | .recv, .write b err =>
    s.watcher = .read ∧ s.sendq = [] ∧ s.term = term ∧ s.streamCloses = 0
    ∧ s.continued env ((b, err) :: reads term s.rd) = pumpLoop env.writeRes 0 (reads term data)
  | .recv, .send v =>
    s.watcher = .read ∧ s.sendq = [] ∧ s.streamCloses = 0
    ∧ (s.attempts, s.written, some v) = pumpLoop env.writeRes 0 (reads term data)
  | .recv, .parked v =>
    s.watcher = .read ∧ s.sendq = [(Task.pump, v)] ∧ s.streamCloses = 0
    ∧ (s.attempts, s.written, some v) = pumpLoop env.writeRes 0 (reads term data)
  | .ret v, .done =>
    s.watcher = .read ∧ s.sendq = [] ∧ s.streamCloses = 0
    ∧ (s.attempts, s.written, some v) = pumpLoop env.writeRes 0 (reads term data)
  | .done v, .done =>
    s.watcher = .read ∧ s.sendq = [] ∧ s.streamCloses = 1
    ∧ (s.attempts, s.written, some v) = pumpLoop env.writeRes 0 (reads term data)
  | _, _ => False

/-- A bound on the number of steps the session still needs to return, when the
client stays connected and the stream `(data, term)` lets the pump finish. -/
def LogState.fuel (data : List Byte) (term : StreamEnd) (s : LogState) : Nat :=
  match s.main with
  | .entry => 3 * (reads term data).length + 6
  | .recv =>
    match s.pump with
    | .select => 3 * (reads s.term s.rd).length + 5
    | .read => 3 * (reads s.term s.rd).length + 4
    | .write _ none => 3 * (reads s.term s.rd).length + 6
    | .write _ (some _) => 4
    | .send _ => 3
    | .parked _ => 2
    | _ => 0
  | .ret _ => 1
  | .done _ => 0

/-- The goroutine to step next in such a session: the pump until it blocks in
its send, the caller otherwise. -/
def LogState.next (s : LogState) : Task :=
  match s.main with
  | .recv =>
    match s.pump with
    | .parked _ => Task.main
    | _ => Task.pump
  | _ => Task.main

/-- A session input in which every pod's log stream opens and is `(data, term)`,
and the client sends no message before `recvEnd`. -/
def LogEnv.ofStream (data : List Byte) (term : StreamEnd) (recvEnd : Option GoErr)
    (wr : List (Option GoErr)) : LogEnv :=
  { openStream := fun _ => .ok (data, term), recvMsgs := 0, recvEnd := recvEnd, writeRes := wr }

/-- What holds of every state of a `GetPodLogs` session whose stream opened but
yields no read result (no newline in its bytes, and it stays open) while the
client closes: nothing is delivered, and the caller can only receive the nil of
the watcher (directly, or as the zero value of the channel the pump closed
after taking that nil). -/
def InvSilent (s : LogState) : Prop :=
  s.crashed = none ∧ s.written = [] ∧ s.term = .pending ∧ splitDelim newline s.rd = none ∧
  match s.main, s.watcher, s.pump with
  | .entry, _, _ => s = LogState.init
  | .recv, .read, .select | .recv, .read, .read
  | .recv, .close, .select | .recv, .close, .read =>
    s.sendq = [] ∧ s.chanClosed = false ∧ s.streamCloses = 0
  | .recv, .send, .select | .recv, .send, .read =>
    s.sendq = [] ∧ s.chanClosed = false ∧ s.streamCloses = 0 ∧ 0 < s.connCloses
  | .recv, .parked, .select | .recv, .parked, .read =>
    s.sendq = [(Task.watcher, none)] ∧ s.chanClosed = false ∧ s.streamCloses = 0
    ∧ 0 < s.connCloses
  | .recv, .print, .deferClose | .recv, .done, .deferClose =>
    s.sendq = [] ∧ s.chanClosed = false ∧ s.streamCloses = 0 ∧ 0 < s.connCloses
  | .recv, .print, .done | .recv, .done, .done =>
    s.sendq = [] ∧ s.chanClosed = true ∧ s.streamCloses = 0 ∧ 0 < s.connCloses
  | .ret v, .print, .done | .ret v, .done, .done =>
    v = none ∧ s.sendq = [] ∧ s.chanClosed = true ∧ s.streamCloses = 0 ∧ 0 < s.connCloses
  | .done v, .print, .done | .done v, .done, .done =>
    v = none ∧ s.sendq = [] ∧ s.chanClosed = true ∧ 0 < s.streamCloses ∧ 0 < s.connCloses
  | .ret v, .print, .select | .ret v, .done, .select
  | .ret v, .print, .read | .ret v, .done, .read =>
    v = none ∧ s.sendq = [] ∧ s.chanClosed = false ∧ s.streamCloses = 0 ∧ 0 < s.connCloses
  | .done v, .print, .select | .done v, .done, .select
  | .done v, .print, .read | .done v, .done, .read
  | .done v, .print, .write _ _ | .done v, .done, .write _ _
  | .done v, .print, .send _ | .done v, .done, .send _ =>
    v = none ∧ s.sendq = [] ∧ s.chanClosed = false ∧ 0 < s.streamCloses ∧ 0 < s.connCloses
  | .done v, .print, .parked w | .done v, .done, .parked w =>
    v = none ∧ s.sendq = [(Task.pump, w)] ∧ s.chanClosed = false ∧ 0 < s.streamCloses
    ∧ 0 < s.connCloses
  | _, _, _ => False

/-- A bound on the number of steps such a session still needs to return. -/
def LogState.closeFuel (env : LogEnv) (s : LogState) : Nat :=
  (match s.main with
   | .entry => 3
   | .recv => 2
   | .ret _ => 1
   | .done _ => 0)
  + (match s.watcher with
     | .idle => env.recvMsgs + 3
     | .read => (env.recvMsgs - s.connReads) + 3
     | .close => 2
     | .send => 1
     | _ => 0)
  + (match s.pump with
     | .deferClose => 1
     | _ => 0)

/-- The goroutine to step next in such a session: the watcher until it blocks
in its send, the pump when it has the deferred close to run, the caller
otherwise. -/
def LogState.closeNext (s : LogState) : Task :=
  match s.watcher with
  | .read | .close | .send => Task.watcher
  | _ =>
    match s.pump with
    | .deferClose => Task.pump
    | _ => Task.main

/-- What holds of every state of a `StreamControllerStatus` session for a
supported kind in which the informer has no update to hand over while the
client closes: nothing is written, only the watcher sends on `errorchan`, and
the channel is closed by the caller alone, after the watcher's send was taken. -/
def InvSilentStatus (s : StatusState) : Prop :=
  s.crashed = none ∧ s.written = [] ∧ s.attempts = [] ∧
  match s.main, s.watcher, s.informer with
  | .entry, _, _ => s = StatusState.init
  | .recv, .read, .run | .recv, .send, .run =>
    s.sendq = [] ∧ s.chanClosed = false ∧ s.stopCloses = 0 ∧ s.connCloses = 0
  | .recv, .parked, .run =>
    s.sendq = [(Move.watcher, none)] ∧ s.chanClosed = false ∧ s.stopCloses = 0
    ∧ s.connCloses = 0
  | .ret v, .deferPrint false, .run | .ret v, .deferStop false, .run =>
    v = none ∧ s.sendq = [] ∧ s.chanClosed = false ∧ s.stopCloses = 0 ∧ s.connCloses = 0
  | .ret v, .deferClose false, .run | .ret v, .deferClose false, .stopped =>
    v = none ∧ s.sendq = [] ∧ s.chanClosed = false ∧ s.stopCloses = 1 ∧ s.connCloses = 0
  | .ret v, .done, .run | .ret v, .done, .stopped =>
    v = none ∧ s.sendq = [] ∧ s.chanClosed = false ∧ s.stopCloses = 1 ∧ s.connCloses = 1
  | .done v, .deferPrint false, .run | .done v, .deferStop false, .run =>
    v = none ∧ s.sendq = [] ∧ s.chanClosed = true ∧ s.stopCloses = 0 ∧ s.connCloses = 0
  | .done v, .deferClose false, .run | .done v, .deferClose false, .stopped =>
    v = none ∧ s.sendq = [] ∧ s.chanClosed = true ∧ s.stopCloses = 1 ∧ s.connCloses = 0
  | .done v, .done, .run | .done v, .done, .stopped =>
    v = none ∧ s.sendq = [] ∧ s.chanClosed = true ∧ s.stopCloses = 1 ∧ s.connCloses = 1
  | _, _, _ => False

/-- A bound on the number of moves such a session still needs to return. -/
def StatusState.closeFuel (env : StatusEnv) (s : StatusState) : Nat :=
  (match s.main with
   | .entry => 3
   | .recv => 2
   | .ret _ => 1
   | .done _ => 0)
  + (match s.watcher with
     | .idle => env.recvMsgs + 2
     | .read => (env.recvMsgs - s.connReads) + 2
     | .send => 1
     | _ => 0)

/-- The move to make next in such a session: the watcher until it blocks in
its send, the caller otherwise. -/
def StatusState.closeNext (s : StatusState) : Move :=
  match s.watcher with
  | .read | .send => Move.watcher
  | _ => Move.main

/-- A session input for `StreamControllerStatus` with ASCII kinds: the
notifications `nots`, a client that sends no message before `recvEnd`, and the
write results `wr`. -/
def StatusEnv.ofNots (nots : List Notification) (recvEnd : Option GoErr)
    (wr : List (Option GoErr)) : StatusEnv :=
  { lowerTable := id, nots := nots, recvMsgs := 0, recvEnd := recvEnd, writeRes := wr }

/-- The messages the status relay is specified to send for a sequence of
informer notifications: one per update, carrying the new object and the
lower-cased kind, none for an add or a delete. -/
def updatesOf (lowered : String) : List Notification → List Message
  | [] => []
  | .update _ newObj :: rest =>
    { EventType := "UPDATE", Object := newObj, Kind := lowered } :: updatesOf lowered rest
  | .add _ :: rest => updatesOf lowered rest
  | .delete _ :: rest => updatesOf lowered rest

/-- The state in which `GetPodLogs` has returned because the stream could not
be opened. -/
def LogState.openFailed (ns name : String) : LogState :=
  { LogState.init with
    opens := [{ ns := ns, name := name, opts := { Follow := true, TailLines := some 30 } }],
    main := .done (some (errCannotOpen name)) }

/-- The state in which the caller of `StreamControllerStatus` has panicked on
the nil informer. -/
def StatusState.nilInformer : StatusState :=
  { StatusState.init with
    chanClosed := true, crashed := some "invalid memory address or nil pointer dereference" }

/-- What holds of every state of a `GetPodLogs` session on the stream bytes
`data`, whatever the client and the writes do: the bytes of the delivered
messages, then those the pump holds for its next write, then those still
unread, are the bytes of the stream. -/
def InvBytes (data : List Byte) (s : LogState) : Prop :=
  (s.main = .entry → s.pump = .idle) ∧
  match s.pump with
  | .idle => s.written = []
  | .select | .read => s.written.flatten ++ s.rd = data
  | .write b _ => s.written.flatten ++ b ++ s.rd = data
  | _ => s.written.flatten <+: data

/-- A bound on the number of steps that can still change the state of a
`GetPodLogs` session in which the client closes and the stream is silent:
every such step of any goroutine lowers it. -/
def LogState.closeRank (env : LogEnv) (s : LogState) : Nat :=
  (match s.main with
   | .entry => 3
   | .recv => 2
   | .ret _ => 1
   | .done _ => 0)
  + (match s.watcher with
     | .idle => env.recvMsgs + 6
     | .read => (env.recvMsgs - s.connReads) + 5
     | .close => 4
     | .send => 3
     | .parked => 2
     | .print => 1
     | .done => 0)
  + (match s.pump with
     | .idle => 8
     | .select => 7
     | .deferClose => 6
     | .read => 5
     | .write _ _ => 4
     | .send _ => 3
     | .parked _ => 2
     | .done => 0)

/-- A bound on the number of moves that can still change the state of a
`StreamControllerStatus` session in which the client closes and the informer
has no update to hand over: every such move lowers it. -/
def StatusState.closeRank (env : StatusEnv) (s : StatusState) : Nat :=
  (match s.main with
   | .entry => 3
   | .recv => 2
   | .ret _ => 1
   | .done _ => 0)
  + (match s.watcher with
     | .idle => env.recvMsgs + 7
     | .read => (env.recvMsgs - s.connReads) + 6
     | .send => 5
     | .parked => 4
     | .deferPrint _ => 3
     | .deferStop _ => 2
     | .deferClose _ => 1
     | .done => 0)
  + (match s.informer with
     | .idle => env.nots.length + 2
     | .run => (env.nots.length - s.delivered) + 1
     | _ => 0)

/-! ## Runs -/

theorem GetPodLogs_snoc (env : LogEnv) (ns name : String) (sched : List Task) (t : Task) :
    GetPodLogs env ns name (sched ++ [t]) = stepLog env ns name (GetPodLogs env ns name sched) t := by
  simp [GetPodLogs, List.foldl_append]

theorem GetPodLogs_append (env : LogEnv) (ns name : String) (s1 s2 : List Task) :
    GetPodLogs env ns name (s1 ++ s2) = s2.foldl (stepLog env ns name) (GetPodLogs env ns name s1) := by
  simp [GetPodLogs, List.foldl_append]

/-- A property of the initial state that every step keeps holds after every run. -/
theorem GetPodLogs_induction (env : LogEnv) (ns name : String) {P : LogState → Prop}
    (h0 : P LogState.init) (hs : ∀ s t, P s → P (stepLog env ns name s t)) :
    ∀ sched, P (GetPodLogs env ns name sched) := by
  intro sched
  induction sched using List.reverseRecOn with
  | nil => exact h0
  | append_singleton l t ih => rw [GetPodLogs_snoc]; exact hs _ t ih

theorem StreamControllerStatus_snoc (env : StatusEnv) (kind : String) (sched : List Move)
    (t : Move) :
    StreamControllerStatus env kind (sched ++ [t])
      = stepStatus env kind (StreamControllerStatus env kind sched) t := by
  simp [StreamControllerStatus, List.foldl_append]

/-- A property of the initial state that every move keeps holds after every run. -/
theorem StreamControllerStatus_induction (env : StatusEnv) (kind : String)
    {P : StatusState → Prop} (h0 : P StatusState.init)
    (hs : ∀ s t, P s → P (stepStatus env kind s t)) :
    ∀ sched, P (StreamControllerStatus env kind sched) := by
  intro sched
  induction sched using List.reverseRecOn with
  | nil => exact h0
  | append_singleton l t ih => rw [StreamControllerStatus_snoc]; exact hs _ t ih

/-! ## Opening the log stream fails -/

theorem openFailed_step (env : LogEnv) (ns name : String) (t : Task) :
    stepLog env ns name (LogState.openFailed ns name) t = LogState.openFailed ns name := by
  cases t <;> rfl

theorem init_step_of_open_fails (env : LogEnv) (ns name : String)
    (hfail : ∀ opts, ∃ e, env.openStream { ns := ns, name := name, opts := opts } = .error e)
    (t : Task) :
    stepLog env ns name LogState.init t
      = if t = Task.main then LogState.openFailed ns name else LogState.init := by
  cases t
  · obtain ⟨e, he⟩ := hfail { Follow := true, TailLines := some 30 }
    simp [stepLog, stepMain, LogState.init, LogState.openFailed, he]
  · rfl
  · rfl

/-- C10: when the pod's log stream cannot be opened, `GetPodLogs` returns a
non-nil error on the caller's first step, after exactly one open request (made
in follow mode with a tail of 30 lines); neither goroutine is ever started and
the connection is never read from, written to or closed. Before the caller's
first step nothing has happened at all. -/
theorem getPodLogs_open_failure (env : LogEnv) (ns name : String)
    (hfail : ∀ opts, ∃ e, env.openStream { ns := ns, name := name, opts := opts } = .error e)
    (sched : List Task) :
    (GetPodLogs env ns name sched).watcher = WatcherPc.idle
    ∧ (GetPodLogs env ns name sched).pump = PumpPc.idle
    ∧ (GetPodLogs env ns name sched).connReads = 0
    ∧ (GetPodLogs env ns name sched).attempts = []
    ∧ (GetPodLogs env ns name sched).connCloses = 0
    ∧ (GetPodLogs env ns name sched).streamCloses = 0
    ∧ (Task.main ∈ sched →
        (GetPodLogs env ns name sched).returned = some (some (errCannotOpen name))
        ∧ (GetPodLogs env ns name sched).opens
            = [{ ns := ns, name := name, opts := { Follow := true, TailLines := some 30 } }])
    ∧ (Task.main ∉ sched → GetPodLogs env ns name sched = LogState.init) := by
  have key : (Task.main ∈ sched → GetPodLogs env ns name sched = LogState.openFailed ns name)
      ∧ (Task.main ∉ sched → GetPodLogs env ns name sched = LogState.init) := by
    induction sched using List.reverseRecOn with
    | nil => simp [GetPodLogs]
    | append_singleton l t ih =>
      rw [GetPodLogs_snoc]
      by_cases hl : Task.main ∈ l
      · rw [ih.1 hl, openFailed_step]; simp [hl]
      · rw [ih.2 hl, init_step_of_open_fails env ns name hfail]
        by_cases ht : t = Task.main
        · simp [ht]
        · have : Task.main ≠ t := fun h => ht h.symm
          simp [hl, ht, this]
  by_cases hm : Task.main ∈ sched
  · rw [key.1 hm]; simp [hm, LogState.openFailed, LogState.init, LogState.returned]
  · rw [key.2 hm]; simp [hm, LogState.init]

/-- C10 at a pod that does not exist, the watcher and the pump scheduled too. -/
theorem getPodLogs_open_failure_witness :
    (GetPodLogs { openStream := fun _ => .error (GoErr.other "pods \"web\" not found"),
                  recvMsgs := 0, recvEnd := none, writeRes := [] }
        "default" "web" [Task.watcher, Task.main, Task.pump]).returned
      = some (some (errCannotOpen "web"))
    ∧ (GetPodLogs { openStream := fun _ => .error (GoErr.other "pods \"web\" not found"),
                    recvMsgs := 0, recvEnd := none, writeRes := [] }
        "default" "web" [Task.watcher, Task.main, Task.pump]).opens.length = 1 :=
  have h := getPodLogs_open_failure
    { openStream := fun _ => .error (GoErr.other "pods \"web\" not found"),
      recvMsgs := 0, recvEnd := none, writeRes := [] }
    "default" "web" (fun _ => ⟨_, rfl⟩) [Task.watcher, Task.main, Task.pump]
  ⟨(h.2.2.2.2.2.2.1 (by decide)).1, by rw [(h.2.2.2.2.2.2.1 (by decide)).2]; rfl⟩

/-! ## The log relay while the client stays connected -/

theorem reads_unfold (term : StreamEnd) (rd : List Byte) :
    reads term rd =
      match ReadBytes newline rd term false with
      | none => []
      | some (b, none, rest) => (b, none) :: reads term rest
      | some (b, some e, _) => [(b, some e)] := by
  induction rd with
  | nil => cases term <;> simp [reads, ReadBytes, splitDelim]
  | cons b bs ih =>
    by_cases hb : b = newline
    · simp [reads, ReadBytes, splitDelim, hb]
    · rw [reads, if_neg hb, ih]
      cases hsp : splitDelim newline bs with
      | none => cases term <;> simp [ReadBytes, splitDelim, hb, hsp]
      | some lr => obtain ⟨l, r⟩ := lr; simp [ReadBytes, splitDelim, hb, hsp]

theorem invNoClose_step (env : LogEnv) (ns name : String) (data : List Byte) (term : StreamEnd)
    (hrecv : env.recvEnd = none)
    (hopen : env.openStream { ns := ns, name := name, opts := { Follow := true, TailLines := some 30 } }
      = .ok (data, term))
    (s : LogState) (t : Task) (h : InvNoClose env data term s) :
    InvNoClose env data term (stepLog env ns name s t) := by
  obtain ⟨hc, hch, hcc, hph⟩ := h
  obtain ⟨main, watcher, pump, sendq, chanClosed, crashed, rd, tm, opens, streamCloses,
    connReads, connCloses, attempts, written, printed⟩ := s
  simp only at hc hch hcc hph
  subst hc hch hcc
  cases main
  · -- entry
    simp only [LogState.init, LogState.mk.injEq] at hph
    obtain ⟨-, rfl, rfl, rfl, -, -, rfl, rfl, rfl, rfl, rfl, -, rfl, rfl, rfl⟩ := hph
    cases t <;> simp [stepLog, stepMain, stepWatcher, stepPump, hopen, InvNoClose, LogState.continued, LogState.init]
  · -- recv
    cases pump <;> simp only [] at hph
    · -- select
      obtain ⟨rfl, rfl, rfl, rfl, h5⟩ := hph
      cases t <;> simp [stepLog, stepMain, stepWatcher, stepPump, InvNoClose, LogState.chanRecv, hrecv]
      · exact h5
      · split <;> simp <;> exact h5
      · exact h5
    · -- read
      obtain ⟨rfl, rfl, rfl, rfl, h5⟩ := hph
      cases t <;> simp [stepLog, stepMain, stepWatcher, stepPump, InvNoClose, LogState.chanRecv, hrecv]
      · exact h5
      · split <;> simp <;> exact h5
      · have h6 := h5
        rw [reads_unfold] at h5
        cases hrb : ReadBytes newline rd tm false with
        | none => simpa using h6
        | some r =>
          obtain ⟨b, err, rest⟩ := r
          simp only [hrb] at h5
          cases err with
          | none => simpa [LogState.continued] using h5
          | some e =>
            simp [LogState.continued] at h5 ⊢
            rw [← h5]
            simp [pumpLoop]
    · -- write
      rename_i b err
      obtain ⟨rfl, rfl, rfl, rfl, h5⟩ := hph
      cases t <;> simp [stepLog, stepMain, stepWatcher, stepPump, InvNoClose, LogState.chanRecv, hrecv]
      · exact h5
      · split <;> simp <;> exact h5
      · cases hw : resultAt env.writeRes attempts.length with
        | some w =>
          simp [LogState.connWrite, hw]
          simp [LogState.continued, pumpLoop, hw] at h5
          exact h5
        | none =>
          cases err with
          | none =>
            simp [LogState.connWrite, hw]
            simp [LogState.continued, pumpLoop, hw] at h5 ⊢
            exact h5
          | some e =>
            by_cases he : e = GoErr.EOF
            · simp [LogState.connWrite, hw, he]
              simp [LogState.continued, pumpLoop, hw, he] at h5
              exact h5
            · simp [LogState.connWrite, hw, he]
              simp [LogState.continued, pumpLoop, hw, he] at h5
              exact h5
    · -- send
      obtain ⟨rfl, rfl, rfl, h5⟩ := hph
      cases t <;> simp [stepLog, stepMain, stepWatcher, stepPump, InvNoClose, LogState.chanRecv, LogState.chanSend, hrecv]
      · exact h5
      · split <;> simp <;> exact h5
      · exact h5
    · -- parked
      obtain ⟨rfl, rfl, rfl, h5⟩ := hph
      cases t <;> simp [stepLog, stepMain, stepWatcher, stepPump, InvNoClose, LogState.chanRecv, LogState.chanSend, LogState.resume, hrecv]
      · exact h5
      · split <;> simp <;> exact h5
      · exact h5
  · cases pump <;> simp only [] at hph
    obtain ⟨rfl, rfl, rfl, h5⟩ := hph
    cases t <;> simp [stepLog, stepMain, stepWatcher, stepPump, InvNoClose, hrecv]
    · exact h5
    · split <;> simp <;> exact h5
    · exact h5
  · cases pump <;> simp only [] at hph
    obtain ⟨rfl, rfl, rfl, h5⟩ := hph
    cases t <;> simp [stepLog, stepMain, stepWatcher, stepPump, InvNoClose, hrecv]
    · exact h5
    · split <;> simp <;> exact h5
    · exact h5

theorem invNoClose_progress (env : LogEnv) (ns name : String) (data : List Byte) (term : StreamEnd)
    (hopen : env.openStream { ns := ns, name := name, opts := { Follow := true, TailLines := some 30 } }
      = .ok (data, term))
    (v : Option GoErr) (hv : (pumpLoop env.writeRes 0 (reads term data)).2.2 = some v)
    (s : LogState) (h : InvNoClose env data term s) (hm : s.returned = none) :
    (stepLog env ns name s s.next).fuel data term < s.fuel data term := by
  obtain ⟨hc, hch, hcc, hph⟩ := h
  obtain ⟨main, watcher, pump, sendq, chanClosed, crashed, rd, tm, opens, streamCloses,
    connReads, connCloses, attempts, written, printed⟩ := s
  simp only at hc hch hcc hph
  subst hc hch hcc
  cases main
  · simp only [LogState.init, LogState.mk.injEq] at hph
    obtain ⟨-, rfl, rfl, rfl, -, -, rfl, rfl, rfl, rfl, rfl, -, rfl, rfl, rfl⟩ := hph
    simp [stepLog, stepMain, hopen, LogState.next, LogState.fuel]
  · cases pump <;> simp only [] at hph
    · obtain ⟨rfl, rfl, rfl, rfl, h5⟩ := hph
      simp [stepLog, stepPump, LogState.next, LogState.fuel, LogState.chanRecv]
    · obtain ⟨rfl, rfl, rfl, rfl, h5⟩ := hph
      have h6 := h5
      rw [reads_unfold] at h5
      cases hrb : ReadBytes newline rd tm false with
      | none =>
        simp only [hrb] at h5
        rw [← h5] at hv
        simp [LogState.continued, pumpLoop] at hv
      | some r =>
        obtain ⟨b, err, rest⟩ := r
        cases err with
        | none =>
          simp [stepLog, stepPump, LogState.next, LogState.fuel, hrb]
          rw [reads_unfold tm rd, hrb]
          simp
          omega
        | some e =>
          simp [stepLog, stepPump, LogState.next, LogState.fuel, hrb]
          rw [reads_unfold tm rd, hrb]
          simp
    · rename_i b err
      obtain ⟨rfl, rfl, rfl, rfl, h5⟩ := hph
      cases hw : resultAt env.writeRes attempts.length with
      | some w => cases err <;> simp [stepLog, stepPump, LogState.next, LogState.fuel, LogState.connWrite, hw]
      | none =>
        cases err with
        | none => simp [stepLog, stepPump, LogState.next, LogState.fuel, LogState.connWrite, hw]
        | some e =>
          by_cases he : e = GoErr.EOF <;>
            simp [stepLog, stepPump, LogState.next, LogState.fuel, LogState.connWrite, hw, he]
    · obtain ⟨rfl, rfl, rfl, h5⟩ := hph
      simp [stepLog, stepPump, LogState.next, LogState.fuel, LogState.chanSend]
    · obtain ⟨rfl, rfl, rfl, h5⟩ := hph
      simp [stepLog, stepMain, LogState.next, LogState.fuel, LogState.chanRecv, LogState.resume]
  · simp [stepLog, stepMain, LogState.next, LogState.fuel]
  · simp [LogState.returned] at hm

theorem invNoClose_returns (env : LogEnv) (ns name : String) (data : List Byte) (term : StreamEnd)
    (hrecv : env.recvEnd = none)
    (hopen : env.openStream { ns := ns, name := name, opts := { Follow := true, TailLines := some 30 } }
      = .ok (data, term))
    (v : Option GoErr) (hv : (pumpLoop env.writeRes 0 (reads term data)).2.2 = some v) :
    ∀ (n : Nat) (s : LogState), InvNoClose env data term s → s.fuel data term ≤ n →
      ∃ sched : List Task, (sched.foldl (stepLog env ns name) s).returned ≠ none := by
  intro n
  induction n with
  | zero =>
    intro s hinv hf
    refine ⟨[], ?_⟩
    intro hr
    have := invNoClose_progress env ns name data term hopen v hv s hinv hr
    omega
  | succ n ih =>
    intro s hinv hf
    by_cases hr : s.returned = none
    · have hlt := invNoClose_progress env ns name data term hopen v hv s hinv hr
      obtain ⟨sched, hs⟩ := ih (stepLog env ns name s s.next)
        (invNoClose_step env ns name data term hrecv hopen s s.next hinv) (by omega)
      exact ⟨s.next :: sched, by simpa using hs⟩
    · exact ⟨[], by simpa using hr⟩


/-! ## The pump loop on the read results -/

/-- For a stream that ends with `e`, the read results are the chunks of its
bytes, the last one with the error `e`. -/
theorem reads_ended (e : GoErr) (data : List Byte) :
    ∃ pre last, reads (.ended e) data = pre.map (fun c => (c, none)) ++ [(last, some e)]
      ∧ chunks data = pre ++ [last] := by
  induction data with
  | nil => exact ⟨[], [], by simp [reads], by simp [chunks]⟩
  | cons b bs ih =>
    obtain ⟨pre, last, h, hc⟩ := ih
    by_cases hb : b = newline
    · exact ⟨[b] :: pre, last, by simp [reads, hb, h], by simp [chunks, hb, hc]⟩
    · cases pre with
      | nil => exact ⟨[], b :: last, by simp [reads, hb, h], by simp [chunks, hb, hc]⟩
      | cons p ps =>
        exact ⟨(b :: p) :: ps, last, by simp [reads, hb, h], by simp [chunks, hb, hc]⟩

theorem reads_ended_map_fst (e : GoErr) (data : List Byte) :
    (reads (.ended e) data).map Prod.fst = chunks data := by
  obtain ⟨pre, last, h, hc⟩ := reads_ended e data
  rw [h, hc]
  simp [List.map_append, Function.comp_def]

/-- The pump loop when every write succeeds and the stream ends with `e`. -/
theorem pumpLoop_all_ok (wr : List (Option GoErr)) (hok : ∀ i, resultAt wr i = none)
    (e : GoErr) (last : List Byte) :
    ∀ (pre : List (List Byte)) (i : Nat),
      pumpLoop wr i (pre.map (fun c => (c, none)) ++ [(last, some e)])
        = (pre ++ [last], pre ++ [last], some (if e ≠ GoErr.EOF then some e else none)) := by
  intro pre
  induction pre with
  | nil => intro i; simp [pumpLoop, hok]
  | cons p ps ih => intro i; simp [pumpLoop, hok, ih]

theorem pumpLoop_ended_all_ok (wr : List (Option GoErr)) (hok : ∀ i, resultAt wr i = none)
    (e : GoErr) (data : List Byte) :
    pumpLoop wr 0 (reads (.ended e) data)
      = (chunks data, chunks data, some (if e ≠ GoErr.EOF then some e else none)) := by
  obtain ⟨pre, last, h, hc⟩ := reads_ended e data
  rw [h, hc]
  exact pumpLoop_all_ok wr hok e last pre 0

theorem invNoClose_init (env : LogEnv) (data : List Byte) (term : StreamEnd) :
    InvNoClose env data term LogState.init := by
  simp [InvNoClose, LogState.init]

/-- Every state of a session whose stream opened and whose client never closes
satisfies `InvNoClose`. -/
theorem invNoClose_run (env : LogEnv) (ns name : String) (data : List Byte) (term : StreamEnd)
    (hrecv : env.recvEnd = none)
    (hopen : env.openStream { ns := ns, name := name, opts := { Follow := true, TailLines := some 30 } }
      = .ok (data, term))
    (sched : List Task) : InvNoClose env data term (GetPodLogs env ns name sched) :=
  GetPodLogs_induction env ns name (invNoClose_init env data term)
    (fun s t h => invNoClose_step env ns name data term hrecv hopen s t h) sched

/-- In such a session the caller can only return what the pump loop ends with,
after exactly the writes of the pump loop, with the stream closed once and the
connection left open. -/
theorem noClose_returned (env : LogEnv) (ns name : String) (data : List Byte) (term : StreamEnd)
    (hrecv : env.recvEnd = none)
    (hopen : env.openStream { ns := ns, name := name, opts := { Follow := true, TailLines := some 30 } }
      = .ok (data, term))
    (sched : List Task) (v : Option GoErr)
    (hret : (GetPodLogs env ns name sched).returned = some v) :
    ((GetPodLogs env ns name sched).attempts, (GetPodLogs env ns name sched).written, some v)
        = pumpLoop env.writeRes 0 (reads term data)
      ∧ (GetPodLogs env ns name sched).connCloses = 0
      ∧ (GetPodLogs env ns name sched).streamCloses = 1 := by
  have h := invNoClose_run env ns name data term hrecv hopen sched
  generalize GetPodLogs env ns name sched = s at h hret
  obtain ⟨hc, hch, hcc, hph⟩ := h
  obtain ⟨main, watcher, pump, sendq, chanClosed, crashed, rd, tm, opens, streamCloses,
    connReads, connCloses, attempts, written, printed⟩ := s
  cases main <;> simp [LogState.returned] at hret
  subst hret
  cases pump <;> simp only [] at hph
  simp only at hcc
  exact ⟨hph.2.2.2, hcc, hph.2.2.1⟩

/-- In such a session, when the pump loop ends with a value, some schedule
makes the caller return. -/
theorem noClose_returns (env : LogEnv) (ns name : String) (data : List Byte) (term : StreamEnd)
    (hrecv : env.recvEnd = none)
    (hopen : env.openStream { ns := ns, name := name, opts := { Follow := true, TailLines := some 30 } }
      = .ok (data, term))
    (v : Option GoErr) (hv : (pumpLoop env.writeRes 0 (reads term data)).2.2 = some v) :
    ∃ sched : List Task, (GetPodLogs env ns name sched).returned = some v := by
  obtain ⟨sched, hs⟩ := invNoClose_returns env ns name data term hrecv hopen v hv _
    LogState.init (invNoClose_init env data term) (le_refl _)
  refine ⟨sched, ?_⟩
  cases hr : (GetPodLogs env ns name sched).returned with
  | none => exact absurd hr hs
  | some w =>
    have := (noClose_returned env ns name data term hrecv hopen sched w hr).1
    rw [← this] at hv
    simpa using hv


/-! ## Chunks of a byte stream -/

set_option maxHeartbeats 4000000 in
theorem invSilent_step (env : LogEnv) (ns name : String) (data : List Byte) (e0 : GoErr)
    (hrecv : env.recvEnd = some e0)
    (hopen : env.openStream { ns := ns, name := name, opts := { Follow := true, TailLines := some 30 } }
      = .ok (data, .pending))
    (hdata : splitDelim newline data = none)
    (s : LogState) (t : Task) (h : InvSilent s) :
    InvSilent (stepLog env ns name s t) := by
  obtain ⟨hc, hw, htm, hsp, hph⟩ := h
  obtain ⟨main, watcher, pump, sendq, chanClosed, crashed, rd, tm, opens, streamCloses,
    connReads, connCloses, attempts, written, printed⟩ := s
  simp only at hc hw htm hsp hph
  subst hc hw htm
  cases main
  · simp only [LogState.init] at hph
    cases hph
    cases t <;> simp [stepLog, stepMain, stepWatcher, stepPump, hopen, InvSilent, LogState.init, hdata, splitDelim]
  all_goals
    cases watcher <;> cases pump <;> simp only [] at hph <;> cases t <;>
      simp_all [stepLog, stepMain, stepWatcher, stepPump, InvSilent, LogState.chanRecv,
        LogState.chanSend, LogState.chanClose, LogState.resume, LogState.connWrite, ReadBytes,
        splitDelim] <;>
      (try split) <;>
      simp_all


theorem invSilent_progress (env : LogEnv) (ns name : String) (data : List Byte) (e0 : GoErr)
    (hrecv : env.recvEnd = some e0)
    (hopen : env.openStream { ns := ns, name := name, opts := { Follow := true, TailLines := some 30 } }
      = .ok (data, .pending))
    (s : LogState) (h : InvSilent s) (hm : s.returned = none) :
    (stepLog env ns name s s.closeNext).closeFuel env < s.closeFuel env := by
  obtain ⟨hc, hw, htm, hsp, hph⟩ := h
  obtain ⟨main, watcher, pump, sendq, chanClosed, crashed, rd, tm, opens, streamCloses,
    connReads, connCloses, attempts, written, printed⟩ := s
  simp only at hc hw htm hsp hph
  subst hc hw htm
  cases main
  · simp only [LogState.init] at hph
    cases hph
    simp [stepLog, stepMain, hopen, LogState.closeNext, LogState.closeFuel]
  all_goals
    cases watcher <;> cases pump <;> simp only [] at hph <;>
      simp_all [stepLog, stepMain, stepWatcher, stepPump, LogState.chanRecv,
        LogState.chanSend, LogState.chanClose, LogState.resume, LogState.closeNext,
        LogState.closeFuel, LogState.returned] <;>
      (try split_ifs) <;>
      (try simp_all) <;>
      omega


theorem invSilent_init : InvSilent LogState.init := by
  simp [InvSilent, LogState.init, splitDelim]

theorem invSilent_run (env : LogEnv) (ns name : String) (data : List Byte) (e0 : GoErr)
    (hrecv : env.recvEnd = some e0)
    (hopen : env.openStream { ns := ns, name := name, opts := { Follow := true, TailLines := some 30 } }
      = .ok (data, .pending))
    (hdata : splitDelim newline data = none) (sched : List Task) :
    InvSilent (GetPodLogs env ns name sched) :=
  GetPodLogs_induction env ns name invSilent_init
    (fun s t h => invSilent_step env ns name data e0 hrecv hopen hdata s t h) sched

theorem invSilent_returned (s : LogState) (h : InvSilent s) (v : Option GoErr)
    (hv : s.returned = some v) : v = none := by
  obtain ⟨hc, hw, htm, hsp, hph⟩ := h
  obtain ⟨main, watcher, pump, sendq, chanClosed, crashed, rd, tm, opens, streamCloses,
    connReads, connCloses, attempts, written, printed⟩ := s
  cases main <;> simp [LogState.returned] at hv
  subst hv
  cases watcher <;> cases pump <;> simp only [] at hph <;> exact hph.1

theorem invSilent_returns (env : LogEnv) (ns name : String) (data : List Byte) (e0 : GoErr)
    (hrecv : env.recvEnd = some e0)
    (hopen : env.openStream { ns := ns, name := name, opts := { Follow := true, TailLines := some 30 } }
      = .ok (data, .pending))
    (hdata : splitDelim newline data = none) :
    ∀ (n : Nat) (s : LogState), InvSilent s → s.closeFuel env ≤ n →
      ∃ sched : List Task, (sched.foldl (stepLog env ns name) s).returned ≠ none := by
  intro n
  induction n with
  | zero =>
    intro s hinv hf
    refine ⟨[], ?_⟩
    intro hr
    have := invSilent_progress env ns name data e0 hrecv hopen s hinv hr
    omega
  | succ n ih =>
    intro s hinv hf
    by_cases hr : s.returned = none
    · have hlt := invSilent_progress env ns name data e0 hrecv hopen s hinv hr
      obtain ⟨sched, hs⟩ := ih (stepLog env ns name s s.closeNext)
        (invSilent_step env ns name data e0 hrecv hopen hdata s s.closeNext hinv) (by omega)
      exact ⟨s.closeNext :: sched, by simpa using hs⟩
    · exact ⟨[], by simpa using hr⟩

/-- The informer of a session without updates hands a notification to the
handlers, none of which is set for it, or has none to hand over. -/
theorem stepInformer_silent (env : StatusEnv) (kind : String)
    (hno : ∀ o n, Notification.update o n ∉ env.nots) (s : StatusState)
    (hrun : s.informer = .run) :
    stepInformer env kind s = s
      ∨ stepInformer env kind s = { s with delivered := s.delivered + 1 } := by
  unfold stepInformer
  rw [hrun]
  cases hget : env.nots.get? s.delivered with
  | none => left; rfl
  | some n =>
    cases n with
    | add o => right; rfl
    | delete o => right; rfl
    | update o n => exact absurd (List.get?_mem hget) (hno o n)

set_option maxHeartbeats 4000000 in
theorem invSilentStatus_step (env : StatusEnv) (kind : String) (i : InformerKind) (e0 : GoErr)
    (hkind : selectInformer (ToLower env.lowerTable kind) = some i)
    (hrecv : env.recvEnd = some e0)
    (hno : ∀ o n, Notification.update o n ∉ env.nots)
    (s : StatusState) (t : Move) (h : InvSilentStatus s) :
    InvSilentStatus (stepStatus env kind s t) := by
  by_cases hinf : t = Move.informer ∧ s.informer = .run
  · obtain ⟨rfl, hrun⟩ := hinf
    have hstep : stepStatus env kind s Move.informer = stepInformer env kind s := by
      simp [stepStatus, h.1]
    rw [hstep]
    rcases stepInformer_silent env kind hno s hrun with h1 | h1
    · rw [h1]; exact h
    · rw [h1]
      obtain ⟨hc, hw, ha, hph⟩ := h
      obtain ⟨main, watcher, informer, selected, handlers, sendq, chanClosed, crashed, delivered,
        stopCloses, connReads, connCloses, attempts, written, printed⟩ := s
      simp only at hc hw ha hph hrun
      subst hc hw ha hrun
      cases main
      · simp [StatusState.init] at hph
      all_goals
        rcases watcher with _ | _ | _ | _ | (_ | _) | (_ | _) | (_ | _) | _ <;>
          simp only [] at hph <;> simp_all [InvSilentStatus]
  · obtain ⟨hc, hw, ha, hph⟩ := h
    obtain ⟨main, watcher, informer, selected, handlers, sendq, chanClosed, crashed, delivered,
      stopCloses, connReads, connCloses, attempts, written, printed⟩ := s
    simp only at hc hw ha hph hinf
    subst hc hw ha
    cases main
    · simp only [StatusState.init] at hph
      cases hph
      cases t <;> simp [stepStatus, stepSMain, stepSWatcher, stepInformer, stepInformerStop, hkind,
        InvSilentStatus, StatusState.init]
    all_goals
      rcases watcher with _ | _ | _ | _ | (_ | _) | (_ | _) | (_ | _) | _ <;>
        cases informer <;> simp only [] at hph <;> cases t <;>
        simp_all [stepStatus, stepSMain, stepSWatcher, stepInformer, stepInformerStop,
          InvSilentStatus, StatusState.chanRecv, StatusState.chanClose, StatusState.resume] <;>
        (try split_ifs) <;>
        (try simp_all)


theorem invSilentStatus_init : InvSilentStatus StatusState.init := by
  simp [InvSilentStatus, StatusState.init]

theorem invSilentStatus_run (env : StatusEnv) (kind : String) (i : InformerKind) (e0 : GoErr)
    (hkind : selectInformer (ToLower env.lowerTable kind) = some i)
    (hrecv : env.recvEnd = some e0)
    (hno : ∀ o n, Notification.update o n ∉ env.nots) (sched : List Move) :
    InvSilentStatus (StreamControllerStatus env kind sched) :=
  StreamControllerStatus_induction env kind invSilentStatus_init
    (fun s t h => invSilentStatus_step env kind i e0 hkind hrecv hno s t h) sched

theorem invSilentStatus_returned (s : StatusState) (h : InvSilentStatus s) (v : Option GoErr)
    (hv : s.returned = some v) : v = none := by
  obtain ⟨hc, hw, ha, hph⟩ := h
  obtain ⟨main, watcher, informer, selected, handlers, sendq, chanClosed, crashed, delivered,
    stopCloses, connReads, connCloses, attempts, written, printed⟩ := s
  cases main <;> simp [StatusState.returned] at hv
  subst hv
  rcases watcher with _ | _ | _ | _ | (_ | _) | (_ | _) | (_ | _) | _ <;>
    cases informer <;> simp only [] at hph <;> exact hph.1

theorem invSilentStatus_progress (env : StatusEnv) (kind : String) (i : InformerKind) (e0 : GoErr)
    (hkind : selectInformer (ToLower env.lowerTable kind) = some i)
    (hrecv : env.recvEnd = some e0)
    (s : StatusState) (h : InvSilentStatus s) (hm : s.returned = none) :
    (stepStatus env kind s s.closeNext).closeFuel env < s.closeFuel env := by
  obtain ⟨hc, hw, ha, hph⟩ := h
  obtain ⟨main, watcher, informer, selected, handlers, sendq, chanClosed, crashed, delivered,
    stopCloses, connReads, connCloses, attempts, written, printed⟩ := s
  simp only at hc hw ha hph
  subst hc hw ha
  cases main
  · simp only [StatusState.init] at hph
    cases hph
    simp [stepStatus, stepSMain, hkind, StatusState.closeNext, StatusState.closeFuel]
  all_goals
    rcases watcher with _ | _ | _ | _ | (_ | _) | (_ | _) | (_ | _) | _ <;>
      cases informer <;> simp only [] at hph <;>
      simp_all [stepStatus, stepSMain, stepSWatcher, StatusState.chanRecv,
        StatusState.chanClose, StatusState.resume, StatusState.closeNext,
        StatusState.closeFuel, StatusState.returned] <;>
      (try split_ifs) <;>
      (try simp_all) <;>
      omega

theorem invSilentStatus_returns (env : StatusEnv) (kind : String) (i : InformerKind) (e0 : GoErr)
    (hkind : selectInformer (ToLower env.lowerTable kind) = some i)
    (hrecv : env.recvEnd = some e0)
    (hno : ∀ o n, Notification.update o n ∉ env.nots) :
    ∀ (n : Nat) (s : StatusState), InvSilentStatus s → s.closeFuel env ≤ n →
      ∃ sched : List Move, (sched.foldl (stepStatus env kind) s).returned ≠ none := by
  intro n
  induction n with
  | zero =>
    intro s hinv hf
    refine ⟨[], ?_⟩
    intro hr
    have := invSilentStatus_progress env kind i e0 hkind hrecv s hinv hr
    omega
  | succ n ih =>
    intro s hinv hf
    by_cases hr : s.returned = none
    · have hlt := invSilentStatus_progress env kind i e0 hkind hrecv s hinv hr
      obtain ⟨sched, hs⟩ := ih (stepStatus env kind s s.closeNext)
        (invSilentStatus_step env kind i e0 hkind hrecv hno s s.closeNext hinv) (by omega)
      exact ⟨s.closeNext :: sched, by simpa using hs⟩
    · exact ⟨[], by simpa using hr⟩

/-! ## The status relay forwards the updates -/

theorem updatesOf_append (lowered : String) (xs ys : List Notification) :
    updatesOf lowered (xs ++ ys) = updatesOf lowered xs ++ updatesOf lowered ys := by
  induction xs with
  | nil => rfl
  | cons x rest ih => cases x <;> simp [updatesOf, ih]

theorem take_succ_of_get (nots : List Notification) (d : Nat) (n : Notification)
    (h : nots.get? d = some n) : nots.take (d + 1) = nots.take d ++ [n] := by
  rw [List.take_succ, ← List.get?_eq_getElem?, h]
  rfl

theorem chanRecv_fields (s s1 : StatusState) (v : Option GoErr)
    (h : s.chanRecv = some (v, s1)) :
    s1.attempts = s.attempts ∧ s1.written = s.written ∧ s1.delivered = s.delivered := by
  unfold StatusState.chanRecv at h
  split at h
  · rename_i t w q hq
    simp only [Option.some.injEq, Prod.mk.injEq] at h
    obtain ⟨-, rfl⟩ := h
    cases t <;> simp [StatusState.resume]
  · split at h
    · simp only [Option.some.injEq, Prod.mk.injEq] at h
      obtain ⟨-, rfl⟩ := h
      simp
    · simp at h

theorem chanClose_fields (s : StatusState) :
    s.chanClose.attempts = s.attempts ∧ s.chanClose.written = s.written
    ∧ s.chanClose.delivered = s.delivered := by
  unfold StatusState.chanClose
  split
  · simp
  · split <;> simp

/-- The caller, the watcher and the stopping of the informer leave the record
of the writes and of the notifications handed over as it is. -/
theorem stepStatus_fields (env : StatusEnv) (kind : String) (s : StatusState) (t : Move)
    (ht : t ≠ Move.informer) :
    (stepStatus env kind s t).attempts = s.attempts
    ∧ (stepStatus env kind s t).written = s.written
    ∧ (stepStatus env kind s t).delivered = s.delivered := by
  unfold stepStatus
  split
  · simp
  · cases t
    · simp only [stepSMain]
      split
      · split <;> simp
      · cases h : s.chanRecv with
        | none => simp
        | some r =>
          obtain ⟨v, s1⟩ := r
          simpa using chanRecv_fields s s1 v h
      · simpa using chanClose_fields s
      · simp
    · simp only [stepSWatcher]
      split <;> (try split) <;> (try split) <;> simp
    · exact absurd rfl ht
    · simp only [stepInformerStop]
      split <;> (try split) <;> simp

/-- What every state of a `StreamControllerStatus` session satisfies: exactly
the updates among the notifications handed over were passed to `WriteJSON`, in
order, and the delivered messages are those whose write succeeded. -/
theorem status_writes (env : StatusEnv) (kind : String) (sched : List Move) :
    (StreamControllerStatus env kind sched).attempts
        = updatesOf (ToLower env.lowerTable kind)
            (env.nots.take (StreamControllerStatus env kind sched).delivered)
    ∧ (StreamControllerStatus env kind sched).written.length
        ≤ (StreamControllerStatus env kind sched).attempts.length
    ∧ ((StreamControllerStatus env kind sched).written.length
          = (StreamControllerStatus env kind sched).attempts.length →
        (StreamControllerStatus env kind sched).written
          = (StreamControllerStatus env kind sched).attempts) := by
  refine StreamControllerStatus_induction env kind
    (P := fun s => s.attempts = updatesOf (ToLower env.lowerTable kind) (env.nots.take s.delivered)
      ∧ s.written.length ≤ s.attempts.length
      ∧ (s.written.length = s.attempts.length → s.written = s.attempts)) ?_ ?_ sched
  · simp [StatusState.init, updatesOf]
  · intro s t h
    by_cases ht : t = Move.informer
    · subst ht
      unfold stepStatus
      split
      · exact h
      · simp only [stepInformer]
        split
        · exact h
        · split
          · exact h
          · rename_i o hget
            simp only
            rw [take_succ_of_get _ _ _ hget, updatesOf_append]
            simpa [updatesOf] using h
          · rename_i o hget
            simp only
            rw [take_succ_of_get _ _ _ hget, updatesOf_append]
            simpa [updatesOf] using h
          · rename_i o n hget
            obtain ⟨h1, h2, h3⟩ := h
            split
            · rename_i w s1 hw
              simp only [StatusState.connWrite, Prod.mk.injEq] at hw
              obtain ⟨hw1, rfl⟩ := hw
              simp only
              rw [take_succ_of_get _ _ _ hget, updatesOf_append, hw1]
              refine ⟨by simp [updatesOf, updateMessage, h1], by simp; omega, ?_⟩
              intro hlen
              simp at hlen
              omega
            · rename_i s1 hw
              simp only [StatusState.connWrite, Prod.mk.injEq] at hw
              obtain ⟨hw1, rfl⟩ := hw
              simp only
              rw [take_succ_of_get _ _ _ hget, updatesOf_append, hw1]
              refine ⟨by simp [updatesOf, updateMessage, h1], by simpa using h2, ?_⟩
              intro hlen
              simp at hlen
              simp [h3 hlen]
        · split
          · exact h
          · exact h
        · exact h
        · exact h
    · obtain ⟨e1, e2, e3⟩ := stepStatus_fields env kind s t ht
      rw [e1, e2, e3]
      exact h


theorem selectInformer_of_supported (lowered : String)
    (h : lowered ∈ ["deployment", "statefulset", "replicaset", "daemonset"]) :
    ∃ i, selectInformer lowered = some i := by
  simp only [List.mem_cons, List.mem_singleton, List.not_mem_nil, or_false] at h
  rcases h with h | h | h | h <;> rw [h] <;> exact ⟨_, rfl⟩

/-- With every write succeeding, the schedule that lets the caller start the
session and then the informer hand over its first n notifications leaves the
session running with n notifications handed over and no failed write. -/
theorem status_deliver (env : StatusEnv) (kind : String)
    (hkind : ToLower env.lowerTable kind ∈ ["deployment", "statefulset", "replicaset", "daemonset"])
    (hok : ∀ i, resultAt env.writeRes i = none) :
    ∀ n, n ≤ env.nots.length →
      (StreamControllerStatus env kind (Move.main :: List.replicate n Move.informer)).crashed = none
      ∧ (StreamControllerStatus env kind (Move.main :: List.replicate n Move.informer)).informer
          = .run
      ∧ (StreamControllerStatus env kind (Move.main :: List.replicate n Move.informer)).connCloses
          = 0
      ∧ (StreamControllerStatus env kind (Move.main :: List.replicate n Move.informer)).delivered
          = n
      ∧ (StreamControllerStatus env kind (Move.main :: List.replicate n Move.informer)).written.length
          = (StreamControllerStatus env kind
              (Move.main :: List.replicate n Move.informer)).attempts.length := by
  obtain ⟨i, hi⟩ := selectInformer_of_supported _ hkind
  intro n
  induction n with
  | zero =>
    intro _
    simp [StreamControllerStatus, stepStatus, stepSMain, hi, StatusState.init]
  | succ n ih =>
    intro hn
    obtain ⟨h1, h2, h3, h4, h5⟩ := ih (by omega)
    have hsched : Move.main :: List.replicate (n + 1) Move.informer
        = (Move.main :: List.replicate n Move.informer) ++ [Move.informer] := by
      rw [List.replicate_succ']; rfl
    rw [hsched, StreamControllerStatus_snoc]
    generalize StreamControllerStatus env kind (Move.main :: List.replicate n Move.informer) = s
      at h1 h2 h3 h4 h5
    have hlt : s.delivered < env.nots.length := by omega
    obtain ⟨x, hx⟩ : ∃ x, env.nots.get? s.delivered = some x :=
      ⟨_, List.get?_eq_get hlt⟩
    have hx1 : env.nots[n]? = some x := by
      rw [← List.get?_eq_getElem?, ← h4]; exact hx
    cases x <;>
      simp [stepStatus, stepInformer, h1, h2, h3, h4, h5, hx1, StatusState.connWrite, hok]

/-- C5: for every supported kind and every sequence of informer notifications,
in every interleaving exactly the updates among the notifications handed to
the handlers so far were passed to `WriteJSON`, once each and in notification
order, nothing for an add or a delete, each as
{EventType: "UPDATE", Kind: lower-cased kind, Object: new object}; when all
those sends succeeded they are the messages written to the connection. With
every send succeeding, some interleaving hands over all notifications and
writes one message per update among them. -/
theorem status_forwards_updates (env : StatusEnv) (kind : String)
    (hkind : ToLower env.lowerTable kind ∈ ["deployment", "statefulset", "replicaset", "daemonset"]) :
    (∀ sched,
        (StreamControllerStatus env kind sched).attempts
          = updatesOf (ToLower env.lowerTable kind)
              (env.nots.take (StreamControllerStatus env kind sched).delivered)
        ∧ ((StreamControllerStatus env kind sched).written.length
              = (StreamControllerStatus env kind sched).attempts.length →
            (StreamControllerStatus env kind sched).written
              = updatesOf (ToLower env.lowerTable kind)
                  (env.nots.take (StreamControllerStatus env kind sched).delivered)))
    ∧ ((∀ i, resultAt env.writeRes i = none) →
        ∃ sched, (StreamControllerStatus env kind sched).delivered = env.nots.length
          ∧ (StreamControllerStatus env kind sched).written
              = updatesOf (ToLower env.lowerTable kind) env.nots) := by
  refine ⟨?_, ?_⟩
  · intro sched
    obtain ⟨h1, -, h3⟩ := status_writes env kind sched
    exact ⟨h1, fun hlen => by rw [h3 hlen, h1]⟩
  · intro hok
    obtain ⟨-, -, -, h4, h5⟩ := status_deliver env kind hkind hok env.nots.length (le_refl _)
    obtain ⟨h1, -, h3⟩ := status_writes env kind
      (Move.main :: List.replicate env.nots.length Move.informer)
    refine ⟨_, h4, ?_⟩
    rw [h3 h5, h1, h4, List.take_length]

/-- C5 for a watch on kind "statefulset" with one update for the object X,
after an add: the one message {UPDATE, statefulset, X}. -/
theorem status_forwards_updates_witness :
    updatesOf "statefulset" [.add "X0", .update "X0" "X"]
      = [{ EventType := "UPDATE", Object := "X", Kind := "statefulset" }]
    ∧ ∃ sched, (StreamControllerStatus (StatusEnv.ofNots [.add "X0", .update "X0" "X"] none [])
          "statefulset" sched).written
        = updatesOf (ToLower id "statefulset") [.add "X0", .update "X0" "X"] :=
  have h := status_forwards_updates (StatusEnv.ofNots [.add "X0", .update "X0" "X"] none [])
    "statefulset" (by decide)
  ⟨by decide, (h.2 (fun i => by simp [resultAt, StatusEnv.ofNots])).imp (fun _ hs => hs.2)⟩

/-- C7: two kind strings with the same lower-casing select the same informer
and, for the same notifications, connection behaviour and interleaving, lead
to the same state: the same messages written, with the same `Kind` field, and
the same result. -/
theorem status_kind_normalization (env : StatusEnv) (k1 k2 : String)
    (h : ToLower env.lowerTable k1 = ToLower env.lowerTable k2) :
    selectInformer (ToLower env.lowerTable k1) = selectInformer (ToLower env.lowerTable k2)
    ∧ ∀ sched, StreamControllerStatus env k1 sched = StreamControllerStatus env k2 sched := by
  refine ⟨by rw [h], ?_⟩
  have hstep : ∀ s t, stepStatus env k1 s t = stepStatus env k2 s t := by
    intro s t
    cases t <;> simp [stepStatus, stepSMain, stepInformer, updateMessage, h]
  intro sched
  induction sched using List.reverseRecOn with
  | nil => rfl
  | append_singleton l t ih =>
    rw [StreamControllerStatus_snoc, StreamControllerStatus_snoc, ih, hstep]

/-- C7 at "DEPLOYMENT" and "deployment". -/
theorem status_kind_normalization_witness :
    selectInformer (ToLower id "DEPLOYMENT") = some InformerKind.Deployments
    ∧ ∀ sched, StreamControllerStatus (StatusEnv.ofNots [.update "d0" "d1"] none []) "DEPLOYMENT" sched
        = StreamControllerStatus (StatusEnv.ofNots [.update "d0" "d1"] none []) "deployment" sched :=
  ⟨by decide,
   (status_kind_normalization (StatusEnv.ofNots [.update "d0" "d1"] none [])
      "DEPLOYMENT" "deployment" (by decide)).2⟩


/-! ## Unsupported kinds, release of the resources, sends after termination -/

theorem toLower_job (tbl : Char → Char) : ToLower tbl "job" = "job" := by
  rfl

/-- C6, what the code does for the kind "job": the `switch` leaves the informer
nil, and the caller's first step is the method call on it, which panics. No
handler is registered, no goroutine is started and the connection is not
touched, but no error is ever returned either, in any interleaving and with
any inputs. -/
theorem status_invalid_kind_panics (env : StatusEnv) (sched : List Move) :
    selectInformer (ToLower env.lowerTable "job") = none
    ∧ (StreamControllerStatus env "job" sched).returned = none
    ∧ (StreamControllerStatus env "job" sched).handlers = 0
    ∧ (StreamControllerStatus env "job" sched).informer = InformerPc.idle
    ∧ (StreamControllerStatus env "job" sched).watcher = SWatcherPc.idle
    ∧ (StreamControllerStatus env "job" sched).connReads = 0
    ∧ (StreamControllerStatus env "job" sched).attempts = []
    ∧ (StreamControllerStatus env "job" sched).connCloses = 0
    ∧ (Move.main ∈ sched →
        (StreamControllerStatus env "job" sched).crashed
          = some "invalid memory address or nil pointer dereference") := by
  have hsel : selectInformer (ToLower env.lowerTable "job") = none := by
    rw [toLower_job]; decide
  have key : (Move.main ∈ sched → StreamControllerStatus env "job" sched = StatusState.nilInformer)
      ∧ (Move.main ∉ sched → StreamControllerStatus env "job" sched = StatusState.init) := by
    induction sched using List.reverseRecOn with
    | nil => simp [StreamControllerStatus]
    | append_singleton l t ih =>
      rw [StreamControllerStatus_snoc]
      by_cases hl : Move.main ∈ l
      · rw [ih.1 hl]
        simp [hl, stepStatus, StatusState.nilInformer]
      · rw [ih.2 hl]
        cases t
        · simp [stepStatus, stepSMain, hsel, StatusState.init, StatusState.nilInformer]
        · simp [hl, stepStatus, stepSWatcher, StatusState.init]
        · simp [hl, stepStatus, stepInformer, StatusState.init]
        · simp [hl, stepStatus, stepInformerStop, StatusState.init]
  refine ⟨hsel, ?_⟩
  by_cases hm : Move.main ∈ sched
  · rw [key.1 hm]
    simp [hm, StatusState.nilInformer, StatusState.init, StatusState.returned]
  · rw [key.2 hm]
    simp [hm, StatusState.init, StatusState.returned]

/-- While the client stays connected the watcher of `StreamControllerStatus`
only reads, so nothing closes the stop channel or the connection. -/
theorem status_no_release (env : StatusEnv) (kind : String) (hrecv : env.recvEnd = none)
    (sched : List Move) :
    (StreamControllerStatus env kind sched).stopCloses = 0
    ∧ (StreamControllerStatus env kind sched).connCloses = 0 := by
  have h : ((StreamControllerStatus env kind sched).watcher = .idle
        ∨ (StreamControllerStatus env kind sched).watcher = .read)
      ∧ (StreamControllerStatus env kind sched).stopCloses = 0
      ∧ (StreamControllerStatus env kind sched).connCloses = 0
      ∧ ∀ a b, (a, b) ∈ (StreamControllerStatus env kind sched).sendq → a = Move.informer := by
    refine StreamControllerStatus_induction env kind
      (P := fun s => (s.watcher = .idle ∨ s.watcher = .read) ∧ s.stopCloses = 0
        ∧ s.connCloses = 0 ∧ ∀ a b, (a, b) ∈ s.sendq → a = Move.informer) ?_ ?_ sched
    · simp [StatusState.init]
    · intro s t hs
      obtain ⟨hw, hst, hcc, hq⟩ := hs
      obtain ⟨main, watcher, informer, selected, handlers, sendq, chanClosed, crashed, delivered,
        stopCloses, connReads, connCloses, attempts, written, printed⟩ := s
      simp only at hw hst hcc hq
      subst hst hcc
      cases crashed with
      | some c => exact ⟨by simpa [stepStatus] using hw, by simp [stepStatus],
          by simp [stepStatus], by simpa [stepStatus] using hq⟩
      | none =>
        cases t
        · cases main
          · cases hsel : selectInformer (ToLower env.lowerTable kind) <;>
              simp [stepStatus, stepSMain, hsel, hw] <;> exact hq
          · cases sendq with
            | nil =>
              cases chanClosed <;> simp [stepStatus, stepSMain, StatusState.chanRecv, hw]
            | cons x q =>
              obtain ⟨t, v⟩ := x
              have ht : t = Move.informer := hq t v (by simp)
              subst ht
              simp [stepStatus, stepSMain, StatusState.chanRecv, StatusState.resume, hw]
              exact fun a b hab => hq a b (by simp [hab])
          · rcases hw with rfl | rfl <;> cases informer <;> cases chanClosed <;>
              simp [stepStatus, stepSMain, StatusState.chanClose] <;> exact hq
          · simp [stepStatus, stepSMain, hw]
            exact hq
        · rcases hw with rfl | rfl
          · simp [stepStatus, stepSWatcher]
            exact hq
          · by_cases hlt : connReads < env.recvMsgs <;>
              simp [stepStatus, stepSWatcher, hrecv, hlt] <;> exact hq
        · cases informer
          · simp [stepStatus, stepInformer, hw]; exact hq
          · cases hget : env.nots[delivered]? with
            | none => simp [stepStatus, stepInformer, hget, hw]; exact hq
            | some n =>
              cases n with
              | add o => simp [stepStatus, stepInformer, hget, hw]; exact hq
              | delete o => simp [stepStatus, stepInformer, hget, hw]; exact hq
              | update o n =>
                cases hwr : resultAt env.writeRes attempts.length <;>
                  simp [stepStatus, stepInformer, hget, hw, StatusState.connWrite, hwr] <;>
                  exact hq
          · cases chanClosed
            · simp [stepStatus, stepInformer, hw]
              intro a b hab
              rcases hab with hab | hab
              · exact hq a b hab
              · exact hab.1
            · simp [stepStatus, stepInformer, hw]; exact hq
          · simp [stepStatus, stepInformer, hw]; exact hq
          · simp [stepStatus, stepInformer, hw]; exact hq
        · cases informer <;> simp [stepStatus, stepInformerStop, hw] <;> exact hq
  exact ⟨h.2.1, h.2.2.1⟩

/-- C8, what the code does when the session ends for another cause than the
client closing. (1) `GetPodLogs` on the stream "a\nb\nc" followed by EOF, the
client staying connected: the call returns nil and has closed the log stream
once, but in no interleaving is the connection ever closed. (2)
`StreamControllerStatus` on kind "deployment" with one update whose write
fails on a broken pipe, the client staying connected: the call returns that
error, and in no interleaving is the stop channel of the informer or the
connection ever closed. -/
theorem release_on_termination_fails :
    ((GetPodLogs (LogEnv.ofStream [97, 10, 98, 10, 99] (.ended .EOF) none []) "default" "web"
        [.main, .pump, .pump, .pump, .pump, .pump, .pump, .pump, .pump, .pump, .pump,
         .main, .main]).returned = some none
      ∧ (GetPodLogs (LogEnv.ofStream [97, 10, 98, 10, 99] (.ended .EOF) none []) "default" "web"
        [.main, .pump, .pump, .pump, .pump, .pump, .pump, .pump, .pump, .pump, .pump,
         .main, .main]).streamCloses = 1
      ∧ ∀ sched, (GetPodLogs (LogEnv.ofStream [97, 10, 98, 10, 99] (.ended .EOF) none [])
          "default" "web" sched).connCloses = 0)
    ∧ ((StreamControllerStatus
          (StatusEnv.ofNots [.update "d0" "d1"] none [some (.other "broken pipe")]) "deployment"
          [.main, .informer, .informer, .main, .main]).returned
        = some (some (.other "broken pipe"))
      ∧ ∀ sched, (StreamControllerStatus
            (StatusEnv.ofNots [.update "d0" "d1"] none [some (.other "broken pipe")]) "deployment"
            sched).stopCloses = 0
          ∧ (StreamControllerStatus
            (StatusEnv.ofNots [.update "d0" "d1"] none [some (.other "broken pipe")]) "deployment"
            sched).connCloses = 0) :=
  ⟨⟨by decide, by decide,
    fun sched => (invNoClose_run (LogEnv.ofStream [97, 10, 98, 10, 99] (.ended .EOF) none [])
      "default" "web" [97, 10, 98, 10, 99] (.ended .EOF) rfl rfl sched).2.2.1⟩,
   ⟨by decide,
    fun sched => status_no_release
      (StatusEnv.ofNots [.update "d0" "d1"] none [some (.other "broken pipe")]) "deployment"
      rfl sched⟩⟩

/-- C9, what the code does after a send failure. On kind "deployment" the
write for a first update fails, the handler sends the error, the caller
receives it, returns it and closes `errorchan`. (1) The informer was not
stopped: it hands over a second update, whose write fails too, and the handler
sends on the closed channel. (2) The client then closes: the watcher sends
nil on the closed channel. Either send panics. -/
theorem send_on_closed_errorchan :
    ((StreamControllerStatus
          (StatusEnv.ofNots [.update "d0" "d1", .update "d1" "d2"] none
            [some (.other "broken pipe"), some (.other "broken pipe")]) "deployment"
          [.main, .informer, .informer, .main, .main]).returned
        = some (some (.other "broken pipe"))
      ∧ (StreamControllerStatus
          (StatusEnv.ofNots [.update "d0" "d1", .update "d1" "d2"] none
            [some (.other "broken pipe"), some (.other "broken pipe")]) "deployment"
          [.main, .informer, .informer, .main, .main]).chanClosed = true
      ∧ (StreamControllerStatus
          (StatusEnv.ofNots [.update "d0" "d1", .update "d1" "d2"] none
            [some (.other "broken pipe"), some (.other "broken pipe")]) "deployment"
          [.main, .informer, .informer, .main, .main]).crashed = none
      ∧ (StreamControllerStatus
          (StatusEnv.ofNots [.update "d0" "d1", .update "d1" "d2"] none
            [some (.other "broken pipe"), some (.other "broken pipe")]) "deployment"
          [.main, .informer, .informer, .main, .main, .informer]).informer
        = InformerPc.send (some (.other "broken pipe"))
      ∧ (StreamControllerStatus
          (StatusEnv.ofNots [.update "d0" "d1", .update "d1" "d2"] none
            [some (.other "broken pipe"), some (.other "broken pipe")]) "deployment"
          [.main, .informer, .informer, .main, .main, .informer, .informer]).crashed
        = some "send on closed channel")
    ∧ ((StreamControllerStatus
          (StatusEnv.ofNots [.update "d0" "d1"] (some (.other "close 1001 (going away)"))
            [some (.other "broken pipe")]) "deployment"
          [.main, .informer, .informer, .main, .main, .watcher]).watcher = SWatcherPc.send
      ∧ (StreamControllerStatus
          (StatusEnv.ofNots [.update "d0" "d1"] (some (.other "close 1001 (going away)"))
            [some (.other "broken pipe")]) "deployment"
          [.main, .informer, .informer, .main, .main, .watcher]).chanClosed = true
      ∧ (StreamControllerStatus
          (StatusEnv.ofNots [.update "d0" "d1"] (some (.other "close 1001 (going away)"))
            [some (.other "broken pipe")]) "deployment"
          [.main, .informer, .informer, .main, .main, .watcher, .watcher]).watcher
        = SWatcherPc.deferPrint true
      ∧ (StreamControllerStatus
          (StatusEnv.ofNots [.update "d0" "d1"] (some (.other "close 1001 (going away)"))
            [some (.other "broken pipe")]) "deployment"
          [.main, .informer, .informer, .main, .main, .watcher, .watcher, .watcher, .watcher,
           .watcher]).crashed
        = some "send on closed channel") := by
  decide


/-! ## The log pump preserves the bytes of the stream -/

theorem splitDelim_append (delim : Byte) (rd l r : List Byte)
    (h : splitDelim delim rd = some (l, r)) : l ++ r = rd := by
  induction rd generalizing l with
  | nil => simp [splitDelim] at h
  | cons b bs ih =>
    by_cases hb : b = delim
    · simp [splitDelim, hb] at h
      obtain ⟨rfl, rfl⟩ := h
      simp [hb]
    · cases hsp : splitDelim delim bs with
      | none => simp [splitDelim, hb, hsp] at h
      | some lr =>
        obtain ⟨l1, r1⟩ := lr
        simp [splitDelim, hb, hsp] at h
        obtain ⟨rfl, rfl⟩ := h
        simp [ih l1 hsp]

/-- A `ReadBytes` call returns an initial part of the unread bytes and leaves
the rest unread. -/
theorem ReadBytes_append (delim : Byte) (rd : List Byte) (term : StreamEnd) (closed : Bool)
    (b : List Byte) (err : Option GoErr) (rest : List Byte)
    (h : ReadBytes delim rd term closed = some (b, err, rest)) : b ++ rest = rd := by
  unfold ReadBytes at h
  cases hsp : splitDelim delim rd with
  | some lr =>
    obtain ⟨l, r⟩ := lr
    simp [hsp] at h
    obtain ⟨rfl, -, rfl⟩ := h
    exact splitDelim_append delim rd _ _ hsp
  | none =>
    cases term with
    | ended e =>
      simp [hsp] at h
      obtain ⟨rfl, -, rfl⟩ := h
      simp
    | pending =>
      cases closed <;> simp [hsp] at h
      obtain ⟨rfl, -, rfl⟩ := h
      simp

theorem invBytes_prefix (data : List Byte) (s : LogState) (h : InvBytes data s) :
    s.written.flatten <+: data := by
  obtain ⟨-, hp⟩ := h
  obtain ⟨main, watcher, pump, sendq, chanClosed, crashed, rd, tm, opens, streamCloses,
    connReads, connCloses, attempts, written, printed⟩ := s
  cases pump <;> simp only [] at hp
  · simp [hp]
  · exact ⟨_, hp⟩
  · exact hp
  · exact ⟨_, hp⟩
  · exact ⟨_, by simpa using hp⟩
  · exact hp
  · exact hp
  · exact hp

/-- The invariant looks at the caller, the pump, the delivered messages and
the unread bytes only. -/
theorem invBytes_of_same (data : List Byte) (s s1 : LogState) (h : InvBytes data s)
    (h1 : s1.main = .entry → s.main = .entry) (h2 : s1.pump = s.pump)
    (h3 : s1.written = s.written) (h4 : s1.rd = s.rd) : InvBytes data s1 := by
  obtain ⟨hm, hp⟩ := h
  refine ⟨fun he => by rw [h2]; exact hm (h1 he), ?_⟩
  rw [h2, h3, h4]
  exact hp

/-- Once the pump has left its loop the invariant only asks for the delivered
bytes to be an initial part of the stream. -/
theorem invBytes_of_left (data : List Byte) (s1 : LogState)
    (hpre : s1.written.flatten <+: data) (hmain : s1.main ≠ .entry)
    (hpump : s1.pump = .deferClose ∨ (∃ v, s1.pump = .send v) ∨ (∃ v, s1.pump = .parked v)
      ∨ s1.pump = .done) : InvBytes data s1 := by
  refine ⟨fun he => absurd he hmain, ?_⟩
  rcases hpump with h | ⟨v, h⟩ | ⟨v, h⟩ | h <;> rw [h] <;> exact hpre

theorem invBytes_step (env : LogEnv) (ns name : String) (data : List Byte) (term : StreamEnd)
    (hopen : env.openStream { ns := ns, name := name, opts := { Follow := true, TailLines := some 30 } }
      = .ok (data, term))
    (s : LogState) (t : Task) (h : InvBytes data s) :
    InvBytes data (stepLog env ns name s t) := by
  have hpre := invBytes_prefix data s h
  by_cases hcr : s.crashed.isSome
  · simpa [stepLog, hcr] using h
  simp only [stepLog, hcr, Bool.false_eq_true, if_false]
  cases t
  · -- the caller
    simp only [stepMain]
    cases hmain : s.main with
    | entry =>
      have hidle : s.pump = .idle := h.1 hmain
      have hw : s.written = [] := by have := h.2; rw [hidle] at this; exact this
      simp only [hopen]
      exact ⟨by simp, by simp [hw]⟩
    | recv =>
      cases hq : s.sendq with
      | nil =>
        cases hcl : s.chanClosed
        · simpa [LogState.chanRecv, hq, hcl] using h
        · simp only [LogState.chanRecv, hq, hcl, if_true]
          exact invBytes_of_same data s _ h (by simp) rfl rfl rfl
      | cons x q =>
        obtain ⟨t, v⟩ := x
        simp only [LogState.chanRecv, hq]
        cases t
        · exact invBytes_of_same data s _ h (by simp [LogState.resume]) rfl rfl rfl
        · exact invBytes_of_same data s _ h (by simp [LogState.resume]) rfl rfl rfl
        · exact invBytes_of_left data _ hpre (by simp [LogState.resume])
            (Or.inr (Or.inr (Or.inr rfl)))
    | ret v => exact invBytes_of_same data s _ h (by simp) rfl rfl rfl
    | done v => simpa using h
  · -- the watcher
    apply invBytes_of_same data s _ h
    · intro he
      revert he
      simp only [stepWatcher]
      cases s.watcher <;> simp [LogState.chanSend] <;> (try split_ifs) <;> (try split) <;>
        simp
    all_goals
      simp only [stepWatcher]
      cases s.watcher <;> simp [LogState.chanSend] <;> (try split_ifs) <;> (try split) <;>
        simp
  · -- the pump
    simp only [stepPump]
    cases hp : s.pump with
    | idle => exact invBytes_of_same data s _ h (fun he => he) rfl rfl rfl
    | select =>
      have hne : s.main ≠ .entry := fun he => by have := h.1 he; rw [hp] at this; cases this
      have hsel : s.written.flatten ++ s.rd = data := by have := h.2; rw [hp] at this; exact this
      cases hrecv : s.chanRecv with
      | none => exact ⟨fun he => absurd he hne, hsel⟩
      | some r =>
        obtain ⟨v, s1⟩ := r
        have hs1 : s1.written = s.written ∧ s1.main = s.main := by
          unfold LogState.chanRecv at hrecv
          split at hrecv
          · rename_i t w q hq
            simp only [Option.some.injEq, Prod.mk.injEq] at hrecv
            obtain ⟨-, rfl⟩ := hrecv
            cases t <;> simp [LogState.resume]
          · split at hrecv
            · simp only [Option.some.injEq, Prod.mk.injEq] at hrecv
              obtain ⟨-, rfl⟩ := hrecv
              simp
            · simp at hrecv
        exact invBytes_of_left data _ (by simpa [hs1.1] using hpre) (by simpa [hs1.2] using hne)
          (Or.inl rfl)
    | deferClose =>
      have hne : s.main ≠ .entry := fun he => by have := h.1 he; rw [hp] at this; cases this
      refine invBytes_of_left data _ ?_ ?_ (Or.inr (Or.inr (Or.inr rfl)))
      · have : s.chanClose.written = s.written := by
          unfold LogState.chanClose; split <;> (try split) <;> rfl
        simpa [this] using hpre
      · have : s.chanClose.main = s.main := by
          unfold LogState.chanClose; split <;> (try split) <;> rfl
        simpa [this] using hne
    | read =>
      have hne : s.main ≠ .entry := fun he => by have := h.1 he; rw [hp] at this; cases this
      have hsel : s.written.flatten ++ s.rd = data := by have := h.2; rw [hp] at this; exact this
      cases hrb : ReadBytes newline s.rd s.term (decide (0 < s.streamCloses)) with
      | none => exact ⟨fun he => absurd he hne, by rw [hp]; exact hsel⟩
      | some r =>
        obtain ⟨b, err, rest⟩ := r
        have happ := ReadBytes_append _ _ _ _ _ _ _ hrb
        refine ⟨fun he => absurd he hne, ?_⟩
        show s.written.flatten ++ b ++ rest = data
        rw [List.append_assoc, happ]
        exact hsel
    | write b err =>
      have hne : s.main ≠ .entry := fun he => by have := h.1 he; rw [hp] at this; cases this
      have hwr : s.written.flatten ++ b ++ s.rd = data := by
        have := h.2; rw [hp] at this; exact this
      simp only [LogState.connWrite]
      split
      · rename_i w s1 heq
        simp only [Prod.mk.injEq] at heq
        obtain ⟨hw1, rfl⟩ := heq
        exact invBytes_of_left data _ (by simpa [hw1] using hpre) hne
          (Or.inr (Or.inl ⟨_, rfl⟩))
      · rename_i s1 heq
        simp only [Prod.mk.injEq] at heq
        obtain ⟨hw1, rfl⟩ := heq
        have hpre1 : (s.written ++ [b]).flatten <+: data :=
          ⟨s.rd, by simpa using hwr⟩
        cases err with
        | none =>
          refine ⟨fun he => absurd he hne, ?_⟩
          show (if _ then _ else _ : List (List Byte)).flatten ++ s.rd = data
          rw [if_pos hw1]
          simpa using hwr
        | some e =>
          simp only
          split_ifs
          · exact invBytes_of_left data _ (by simpa [hw1] using hpre1) hne
              (Or.inr (Or.inl ⟨_, rfl⟩))
          · exact invBytes_of_left data _ (by simpa [hw1] using hpre1) hne
              (Or.inr (Or.inl ⟨_, rfl⟩))
    | send v =>
      have hne : s.main ≠ .entry := fun he => by have := h.1 he; rw [hp] at this; cases this
      have hs1 : (s.chanSend Task.pump v).written = s.written
          ∧ (s.chanSend Task.pump v).main = s.main
          ∧ ((∃ w, (s.chanSend Task.pump v).pump = .send w)
              ∨ ∃ w, (s.chanSend Task.pump v).pump = .parked w) := by
        unfold LogState.chanSend
        split
        · exact ⟨rfl, rfl, Or.inl ⟨v, hp⟩⟩
        · exact ⟨rfl, rfl, Or.inr ⟨v, rfl⟩⟩
      exact invBytes_of_left data _ (by simpa [hs1.1] using hpre) (by simpa [hs1.2.1] using hne)
        (by rcases hs1.2.2 with h1 | h1
            · exact Or.inr (Or.inl h1)
            · exact Or.inr (Or.inr (Or.inl h1)))
    | parked v => exact invBytes_of_same data s _ h (fun he => he) rfl rfl rfl
    | done => exact invBytes_of_same data s _ h (fun he => he) rfl rfl rfl

theorem invBytes_init (data : List Byte) : InvBytes data LogState.init := by
  exact ⟨fun _ => rfl, rfl⟩

/-- In every state of a session whose stream opened with the bytes `data`, the
bytes of the delivered messages, in order, are an initial part of `data`. -/
theorem invBytes_run (env : LogEnv) (ns name : String) (data : List Byte) (term : StreamEnd)
    (hopen : env.openStream { ns := ns, name := name, opts := { Follow := true, TailLines := some 30 } }
      = .ok (data, term))
    (sched : List Task) : InvBytes data (GetPodLogs env ns name sched) :=
  GetPodLogs_induction env ns name (invBytes_init data)
    (fun s t h => invBytes_step env ns name data term hopen s t h) sched

/-- The chunks of a byte sequence are complete lines, each a body without
newline followed by the newline, then a last part without newline; put
together they are the sequence. -/
theorem chunks_decompose (data : List Byte) :
    ∃ (bodies : List (List Byte)) (part : List Byte),
      chunks data = bodies.map (fun b => b ++ [newline]) ++ [part]
      ∧ (∀ b ∈ bodies, newline ∉ b) ∧ newline ∉ part
      ∧ (bodies.map (fun b => b ++ [newline])).flatten ++ part = data := by
  induction data with
  | nil => exact ⟨[], [], by simp [chunks], by simp, by simp, by simp⟩
  | cons b bs ih =>
    obtain ⟨bodies, part, hc, hb, hp, hd⟩ := ih
    by_cases hnl : b = newline
    · refine ⟨[] :: bodies, part, by simp [chunks, hnl, hc], ?_, hp, by simp [hnl, hd]⟩
      intro x hx
      rcases List.mem_cons.mp hx with rfl | hx
      · simp
      · exact hb x hx
    · cases bodies with
      | nil =>
        refine ⟨[], b :: part, by simp [chunks, hnl, hc], by simp, ?_, by simpa using hd⟩
        intro hmem
        rcases List.mem_cons.mp hmem with h | h
        · exact hnl h.symm
        · exact hp h
      | cons x xs =>
        refine ⟨(b :: x) :: xs, part, by simp [chunks, hnl, hc], ?_, hp, by simpa using hd⟩
        intro y hy
        rcases List.mem_cons.mp hy with rfl | hy
        · intro hmem
          rcases List.mem_cons.mp hmem with h | h
          · exact hnl h.symm
          · exact hb x (by simp) h
        · exact hb y (by simp [hy])

theorem chunks_flatten (data : List Byte) : (chunks data).flatten = data := by
  obtain ⟨bodies, part, hc, -, -, hd⟩ := chunks_decompose data
  rw [hc, ← hd]
  simp

/-- Every chunk but the last holds exactly one newline, as its final byte. -/
theorem chunks_dropLast (data : List Byte) :
    ∀ m ∈ (chunks data).dropLast, m.count newline = 1 ∧ m.getLast? = some newline := by
  obtain ⟨bodies, part, hc, hb, -, -⟩ := chunks_decompose data
  rw [hc, List.dropLast_concat]
  intro m hm
  obtain ⟨body, hbody, rfl⟩ := List.mem_map.mp hm
  refine ⟨?_, by simp⟩
  rw [List.count_append, List.count_eq_zero_of_not_mem (hb body hbody)]
  simp

/-- C11: the log pump preserves the bytes of the stream. For every log stream
that opened with the bytes `data`, whatever the client does and whichever
writes fail, in every interleaving and at every moment the messages the pump
has delivered, put together in order, are an initial part of `data`. When
moreover the stream ends (in EOF or in a read error), every send succeeds and
the client never closes, the call can return, and whenever it has returned the
delivered messages put together are exactly `data`, and every message except
the last holds exactly one newline, as its final byte. -/
theorem getPodLogs_byte_preservation (env : LogEnv) (ns name : String) (data : List Byte)
    (term : StreamEnd)
    (hopen : env.openStream { ns := ns, name := name, opts := { Follow := true, TailLines := some 30 } }
      = .ok (data, term)) :
    (∀ sched, (GetPodLogs env ns name sched).written.flatten <+: data)
    ∧ (∀ e, term = .ended e → env.recvEnd = none → (∀ i, resultAt env.writeRes i = none) →
        (∃ sched v, (GetPodLogs env ns name sched).returned = some v)
        ∧ ∀ sched v, (GetPodLogs env ns name sched).returned = some v →
            (GetPodLogs env ns name sched).written.flatten = data
            ∧ ∀ m ∈ (GetPodLogs env ns name sched).written.dropLast,
                m.count newline = 1 ∧ m.getLast? = some newline) := by
  refine ⟨fun sched => invBytes_prefix data _ (invBytes_run env ns name data term hopen sched), ?_⟩
  intro e hterm hrecv hok
  subst hterm
  have htot := pumpLoop_ended_all_ok env.writeRes hok e data
  refine ⟨?_, ?_⟩
  · obtain ⟨sched, hs⟩ := noClose_returns env ns name data _ hrecv hopen _ (by rw [htot])
    exact ⟨sched, _, hs⟩
  · intro sched v hv
    have := (noClose_returned env ns name data _ hrecv hopen sched v hv).1
    rw [htot] at this
    simp only [Prod.mk.injEq] at this
    obtain ⟨-, h2, -⟩ := this
    rw [h2]
    exact ⟨chunks_flatten data, chunks_dropLast data⟩

/-- C11 at the stream "a\nb\nc" followed by EOF, with the second write failing
on a broken pipe for the first part, and with every write succeeding for the
second. -/
theorem getPodLogs_byte_preservation_witness :
    (∀ sched, (GetPodLogs (LogEnv.ofStream [97, 10, 98, 10, 99] (.ended .EOF)
          (some (.other "close 1000 (normal)")) [none, some (.other "broken pipe")])
          "default" "web" sched).written.flatten <+: [97, 10, 98, 10, 99])
    ∧ (∃ sched v, (GetPodLogs (LogEnv.ofStream [97, 10, 98, 10, 99] (.ended .EOF) none [])
          "default" "web" sched).returned = some v)
    ∧ ∀ sched v, (GetPodLogs (LogEnv.ofStream [97, 10, 98, 10, 99] (.ended .EOF) none [])
          "default" "web" sched).returned = some v →
        (GetPodLogs (LogEnv.ofStream [97, 10, 98, 10, 99] (.ended .EOF) none [])
          "default" "web" sched).written.flatten = [97, 10, 98, 10, 99] :=
  ⟨(getPodLogs_byte_preservation
      (LogEnv.ofStream [97, 10, 98, 10, 99] (.ended .EOF) (some (.other "close 1000 (normal)"))
        [none, some (.other "broken pipe")])
      "default" "web" [97, 10, 98, 10, 99] (.ended .EOF) rfl).1,
   ((getPodLogs_byte_preservation (LogEnv.ofStream [97, 10, 98, 10, 99] (.ended .EOF) none [])
      "default" "web" [97, 10, 98, 10, 99] (.ended .EOF) rfl).2 .EOF rfl rfl
      (fun i => by simp [resultAt, LogEnv.ofStream])).1,
   fun sched v hv =>
    (((getPodLogs_byte_preservation (LogEnv.ofStream [97, 10, 98, 10, 99] (.ended .EOF) none [])
      "default" "web" [97, 10, 98, 10, 99] (.ended .EOF) rfl).2 .EOF rfl rfl
      (fun i => by simp [resultAt, LogEnv.ofStream])).2 sched v hv).1⟩


/-! ## A client close while the source is silent, under every fair schedule -/

/-- Rounds of steps. When an invariant holds, every step either leaves the
state as it is or lowers a rank, a state that has not returned has a step that
changes it, and each round contains that step, then after as many rounds as
the rank the session has returned. -/
theorem rounds_return {σ τ : Type} (step : σ → τ → σ) (Inv : σ → Prop) (rank : σ → Nat)
    (ret : σ → Prop) (next : σ → τ)
    (hinv : ∀ s t, Inv s → Inv (step s t))
    (hdec : ∀ s t, Inv s → step s t = s ∨ rank (step s t) < rank s)
    (hprog : ∀ s, Inv s → ¬ ret s → step s (next s) ≠ s)
    (hstay : ∀ s t, Inv s → ret s → ret (step s t)) :
    ∀ (rounds : List (List τ)) (s : σ), Inv s → (∀ r ∈ rounds, ∀ s1, next s1 ∈ r) →
      rank s ≤ rounds.length → ret (rounds.flatten.foldl step s) := by
  have hinvs : ∀ (r : List τ) (s : σ), Inv s → Inv (r.foldl step s) := by
    intro r
    induction r with
    | nil => intro s h; exact h
    | cons t r ih => intro s h; exact ih _ (hinv s t h)
  have hstays : ∀ (r : List τ) (s : σ), Inv s → ret s → ret (r.foldl step s) := by
    intro r
    induction r with
    | nil => intro s _ h; exact h
    | cons t r ih => intro s hi h; exact ih _ (hinv s t hi) (hstay s t hi h)
  have hmono : ∀ (r : List τ) (s : σ), Inv s → rank (r.foldl step s) ≤ rank s := by
    intro r
    induction r with
    | nil => intro s _; exact le_refl _
    | cons t r ih =>
      intro s hi
      have h1 := ih _ (hinv s t hi)
      rcases hdec s t hi with h2 | h2
      · simp only [List.foldl_cons]; rw [h2] at h1 ⊢; exact h1
      · simp only [List.foldl_cons]; omega
  have hround : ∀ (r : List τ) (s : σ), Inv s →
      (∀ t ∈ r, step s t = s) ∨ rank (r.foldl step s) < rank s := by
    intro r
    induction r with
    | nil => intro s _; left; intro t ht; cases ht
    | cons t r ih =>
      intro s hi
      rcases hdec s t hi with h2 | h2
      · rcases ih s hi with h3 | h3
        · left
          intro u hu
          rcases List.mem_cons.mp hu with rfl | hu
          · exact h2
          · exact h3 u hu
        · right; simp only [List.foldl_cons]; rw [h2]; exact h3
      · right
        have := hmono r _ (hinv s t hi)
        simp only [List.foldl_cons]; omega
  intro rounds
  induction rounds with
  | nil =>
    intro s hi _ hrank
    by_contra hnot
    rcases hdec s (next s) hi with h | h
    · exact hprog s hi hnot h
    · simp at hrank; omega
  | cons r rest ih =>
    intro s hi hall hrank
    simp only [List.flatten_cons, List.foldl_append]
    by_cases hret : ret s
    · exact hstays _ _ (hinvs r s hi) (hstays r s hi hret)
    · apply ih _ (hinvs r s hi) (fun r1 hr1 => hall r1 (by simp [hr1]))
      rcases hround r s hi with h | h
      · exact absurd (h (next s) (hall r (by simp) s)) (hprog s hi hret)
      · simp at hrank; omega

set_option maxHeartbeats 4000000 in
theorem invSilent_rank (env : LogEnv) (ns name : String) (data : List Byte) (e0 : GoErr)
    (hrecv : env.recvEnd = some e0)
    (hopen : env.openStream { ns := ns, name := name, opts := { Follow := true, TailLines := some 30 } }
      = .ok (data, .pending))
    (s : LogState) (t : Task) (h : InvSilent s) :
    stepLog env ns name s t = s
      ∨ (stepLog env ns name s t).closeRank env < s.closeRank env := by
  obtain ⟨hc, hw, htm, hsp, hph⟩ := h
  obtain ⟨main, watcher, pump, sendq, chanClosed, crashed, rd, tm, opens, streamCloses,
    connReads, connCloses, attempts, written, printed⟩ := s
  simp only at hc hw htm hsp hph
  subst hc hw htm
  cases main
  · simp only [LogState.init] at hph
    cases hph
    cases t <;> simp [stepLog, stepMain, stepWatcher, stepPump, hopen, LogState.closeRank]
    omega
  all_goals
    cases watcher <;> cases pump <;> simp only [] at hph <;> cases t <;>
      simp_all [stepLog, stepMain, stepWatcher, stepPump, LogState.chanRecv,
        LogState.chanSend, LogState.chanClose, LogState.resume, LogState.connWrite, ReadBytes,
        LogState.closeRank] <;>
      (try split_ifs) <;>
      (try simp_all) <;>
      (try omega)

theorem invSilent_stay (env : LogEnv) (ns name : String) (s : LogState) (t : Task)
    (h : InvSilent s) (hret : s.returned ≠ none) : (stepLog env ns name s t).returned ≠ none := by
  obtain ⟨hc, hw, htm, hsp, hph⟩ := h
  obtain ⟨main, watcher, pump, sendq, chanClosed, crashed, rd, tm, opens, streamCloses,
    connReads, connCloses, attempts, written, printed⟩ := s
  simp only at hc hw htm hsp hph
  subst hc hw htm
  cases main <;> simp [LogState.returned] at hret
  cases watcher <;> cases pump <;> simp only [] at hph <;> cases t <;>
    simp_all [stepLog, stepMain, stepWatcher, stepPump, LogState.chanRecv,
      LogState.chanSend, LogState.chanClose, LogState.resume, LogState.connWrite, ReadBytes,
      LogState.returned]

set_option maxHeartbeats 4000000 in
theorem invSilentStatus_rank (env : StatusEnv) (kind : String) (i : InformerKind) (e0 : GoErr)
    (hkind : selectInformer (ToLower env.lowerTable kind) = some i)
    (hrecv : env.recvEnd = some e0)
    (hno : ∀ o n, Notification.update o n ∉ env.nots)
    (s : StatusState) (t : Move) (h : InvSilentStatus s) :
    stepStatus env kind s t = s
      ∨ (stepStatus env kind s t).closeRank env < s.closeRank env := by
  by_cases hinf : t = Move.informer ∧ s.informer = .run
  · obtain ⟨rfl, hrun⟩ := hinf
    have hstep : stepStatus env kind s Move.informer = stepInformer env kind s := by
      simp [stepStatus, h.1]
    rw [hstep]
    unfold stepInformer
    rw [hrun]
    cases hget : env.nots.get? s.delivered with
    | none => left; rfl
    | some n =>
      have hlt : s.delivered < env.nots.length := by
        by_contra hge
        rw [List.get?_eq_none.mpr (by omega)] at hget
        cases hget
      cases n with
      | add o => right; simp [StatusState.closeRank, hrun]; omega
      | delete o => right; simp [StatusState.closeRank, hrun]; omega
      | update o n => exact absurd (List.get?_mem hget) (hno o n)
  · obtain ⟨hc, hw, ha, hph⟩ := h
    obtain ⟨main, watcher, informer, selected, handlers, sendq, chanClosed, crashed, delivered,
      stopCloses, connReads, connCloses, attempts, written, printed⟩ := s
    simp only at hc hw ha hph hinf
    subst hc hw ha
    cases main
    · simp only [StatusState.init] at hph
      cases hph
      cases t <;> simp [stepStatus, stepSMain, stepSWatcher, stepInformer, stepInformerStop, hkind,
        StatusState.closeRank]
      omega
    all_goals
      rcases watcher with _ | _ | _ | _ | (_ | _) | (_ | _) | (_ | _) | _ <;>
        cases informer <;> simp only [] at hph <;> cases t <;>
        simp_all [stepStatus, stepSMain, stepSWatcher, stepInformer, stepInformerStop,
          StatusState.chanRecv, StatusState.chanClose, StatusState.resume,
          StatusState.closeRank] <;>
        (try split_ifs) <;>
        (try simp_all) <;>
        (try omega)

theorem invSilentStatus_stay (env : StatusEnv) (kind : String) (s : StatusState) (t : Move)
    (hret : s.returned ≠ none) :
    (stepStatus env kind s t).returned ≠ none := by
  have hmain : ∀ v, s.main = .done v → (stepStatus env kind s t).main = .done v := by
    intro v hv
    unfold stepStatus
    split
    · exact hv
    · cases t
      · simp [stepSMain, hv]
      · simp only [stepSWatcher]
        split <;> (try split_ifs) <;> (try split) <;> simp [hv]
      · simp only [stepInformer]
        split
        · exact hv
        · split
          · exact hv
          · exact hv
          · exact hv
          · simp only [StatusState.connWrite]
            split <;>
              (rename_i hq
               simp only [Prod.mk.injEq] at hq
               obtain ⟨-, rfl⟩ := hq
               simp [hv])
        · split <;> simp [hv]
        · exact hv
        · exact hv
      · simp only [stepInformerStop]
        split <;> (try split_ifs) <;> simp [hv]
  cases hm : s.main with
  | done v => simp [StatusState.returned, hmain v hm]
  | entry => simp [StatusState.returned, hm] at hret
  | recv => simp [StatusState.returned, hm] at hret
  | ret v => simp [StatusState.returned, hm] at hret


theorem StreamControllerStatus_append (env : StatusEnv) (kind : String) (s1 s2 : List Move) :
    StreamControllerStatus env kind (s1 ++ s2)
      = s2.foldl (stepStatus env kind) (StreamControllerStatus env kind s1) := by
  simp [StreamControllerStatus, List.foldl_append]

/-- C2, the claim as stated fails when the source produces an event after the
client closed. (1) `GetPodLogs` on a pod that logs the line "a\n" after the
client's close frame: when the watcher's `ReadMessage` fails nothing has been
read from the stream; the watcher closes the connection (line 115) and, before
it sends nil (line 116), the pump reads the line, its write fails on the
closed connection and it sends that error (lines 131-134), which the caller
receives first: the call returns the write error, not nil. (2)
`StreamControllerStatus` on kind "deployment" with an update that arrives
after the close frame and whose write fails because the close was sent: the
handler sends the error (line 188) before the watcher sends nil (line 201),
and the call returns the write error, not nil. -/
theorem client_close_counterexample :
    ((GetPodLogs (LogEnv.ofStream [97, 10] .pending (some (.other "close 1000 (normal)")) [])
          "default" "web" [.main, .watcher]).watcher = WatcherPc.close
      ∧ (GetPodLogs (LogEnv.ofStream [97, 10] .pending (some (.other "close 1000 (normal)")) [])
          "default" "web" [.main, .watcher]).pump = PumpPc.select
      ∧ (GetPodLogs (LogEnv.ofStream [97, 10] .pending (some (.other "close 1000 (normal)")) [])
          "default" "web" [.main, .watcher]).rd = [97, 10]
      ∧ (GetPodLogs (LogEnv.ofStream [97, 10] .pending (some (.other "close 1000 (normal)")) [])
          "default" "web"
          [.main, .watcher, .watcher, .pump, .pump, .pump, .pump, .main, .main]).returned
        = some (some errConnClosed)
      ∧ (GetPodLogs (LogEnv.ofStream [97, 10] .pending (some (.other "close 1000 (normal)")) [])
          "default" "web"
          [.main, .watcher, .watcher, .pump, .pump, .pump, .pump, .main, .main]).crashed
        = none)
    ∧ ((StreamControllerStatus
          (StatusEnv.ofNots [.update "d0" "d1"] (some (.other "close 1000 (normal)"))
            [some (.other "websocket: close sent")]) "deployment"
          [.main, .watcher]).watcher = SWatcherPc.send
      ∧ (StreamControllerStatus
          (StatusEnv.ofNots [.update "d0" "d1"] (some (.other "close 1000 (normal)"))
            [some (.other "websocket: close sent")]) "deployment"
          [.main, .watcher]).delivered = 0
      ∧ (StreamControllerStatus
          (StatusEnv.ofNots [.update "d0" "d1"] (some (.other "close 1000 (normal)"))
            [some (.other "websocket: close sent")]) "deployment"
          [.main, .watcher, .informer, .informer, .main, .main]).returned
        = some (some (.other "websocket: close sent"))
      ∧ (StreamControllerStatus
          (StatusEnv.ofNots [.update "d0" "d1"] (some (.other "close 1000 (normal)"))
            [some (.other "websocket: close sent")]) "deployment"
          [.main, .watcher, .informer, .informer, .main, .main]).crashed
        = none) := by
  decide

/-- C2, amended: a client close is not an error when the source stays silent.
When the connection's receive returns an error (after any number of client
messages) and the source yields nothing during the session (the log stream
stays open without a complete line; the informer has no update to hand over,
the kind being a supported one), then for `GetPodLogs` and for
`StreamControllerStatus`: in every interleaving no message is ever delivered,
nothing panics, and the call never returns anything but nil; from every state
an interleaving can reach, the call can still return; and once the
interleaving has gone through enough rounds, each of which steps the caller,
the watcher (and, for the log relay, the pump) at least once in any order and
any number of times, the call has returned nil. -/
theorem client_close_is_not_an_error
    (lenv : LogEnv) (ns name : String) (data : List Byte) (e0 : GoErr)
    (senv : StatusEnv) (kind : String) (e1 : GoErr)
    (hrecv : lenv.recvEnd = some e0)
    (hopen : lenv.openStream { ns := ns, name := name, opts := { Follow := true, TailLines := some 30 } }
      = .ok (data, .pending))
    (hdata : newline ∉ data)
    (hkind : ToLower senv.lowerTable kind ∈ ["deployment", "statefulset", "replicaset", "daemonset"])
    (hrecv1 : senv.recvEnd = some e1)
    (hno : ∀ o n, Notification.update o n ∉ senv.nots) :
    ((∀ sched, (GetPodLogs lenv ns name sched).written = []
          ∧ (GetPodLogs lenv ns name sched).crashed = none
          ∧ ∀ v, (GetPodLogs lenv ns name sched).returned = some v → v = none)
      ∧ (∀ sched, ∃ ext, (GetPodLogs lenv ns name (sched ++ ext)).returned = some none)
      ∧ (∀ rounds : List (List Task),
          (∀ r ∈ rounds, Task.main ∈ r ∧ Task.watcher ∈ r ∧ Task.pump ∈ r) →
          lenv.recvMsgs + 17 ≤ rounds.length →
          (GetPodLogs lenv ns name rounds.flatten).returned = some none))
    ∧ ((∀ sched, (StreamControllerStatus senv kind sched).written = []
          ∧ (StreamControllerStatus senv kind sched).crashed = none
          ∧ ∀ v, (StreamControllerStatus senv kind sched).returned = some v → v = none)
      ∧ (∀ sched, ∃ ext, (StreamControllerStatus senv kind (sched ++ ext)).returned = some none)
      ∧ (∀ rounds : List (List Move),
          (∀ r ∈ rounds, Move.main ∈ r ∧ Move.watcher ∈ r) →
          senv.recvMsgs + senv.nots.length + 12 ≤ rounds.length →
          (StreamControllerStatus senv kind rounds.flatten).returned = some none)) := by
  have hsplit : splitDelim newline data = none := by
    clear hopen
    induction data with
    | nil => rfl
    | cons b bs ih =>
      have hb : b ≠ newline := fun hb => hdata (by simp [hb])
      have hbs : newline ∉ bs := fun hbs => hdata (by simp [hbs])
      simp [splitDelim, hb, ih hbs]
  obtain ⟨i, hi⟩ := selectInformer_of_supported _ hkind
  have hlsafe : ∀ sched v, (GetPodLogs lenv ns name sched).returned = some v → v = none :=
    fun sched v hv =>
      invSilent_returned _ (invSilent_run lenv ns name data e0 hrecv hopen hsplit sched) v hv
  have hssafe : ∀ sched v, (StreamControllerStatus senv kind sched).returned = some v → v = none :=
    fun sched v hv =>
      invSilentStatus_returned _ (invSilentStatus_run senv kind i e1 hi hrecv1 hno sched) v hv
  have hlnone : ∀ sched, (GetPodLogs lenv ns name sched).returned ≠ none →
      (GetPodLogs lenv ns name sched).returned = some none := by
    intro sched hne
    cases hr : (GetPodLogs lenv ns name sched).returned with
    | none => exact absurd hr hne
    | some w => rw [hlsafe sched w hr]
  have hsnone : ∀ sched, (StreamControllerStatus senv kind sched).returned ≠ none →
      (StreamControllerStatus senv kind sched).returned = some none := by
    intro sched hne
    cases hr : (StreamControllerStatus senv kind sched).returned with
    | none => exact absurd hr hne
    | some w => rw [hssafe sched w hr]
  refine ⟨⟨?_, ?_, ?_⟩, ⟨?_, ?_, ?_⟩⟩
  · intro sched
    have h := invSilent_run lenv ns name data e0 hrecv hopen hsplit sched
    exact ⟨h.2.1, h.1, hlsafe sched⟩
  · intro sched
    obtain ⟨ext, hs⟩ := invSilent_returns lenv ns name data e0 hrecv hopen hsplit _
      (GetPodLogs lenv ns name sched)
      (invSilent_run lenv ns name data e0 hrecv hopen hsplit sched) (le_refl _)
    refine ⟨ext, hlnone _ ?_⟩
    rw [GetPodLogs_append]
    exact hs
  · intro rounds hall hlen
    apply hlnone
    refine rounds_return (stepLog lenv ns name) InvSilent (LogState.closeRank lenv)
      (fun s => s.returned ≠ none) LogState.closeNext
      (fun s t h => invSilent_step lenv ns name data e0 hrecv hopen hsplit s t h)
      (fun s t h => invSilent_rank lenv ns name data e0 hrecv hopen s t h)
      ?_ (fun s t h hr => invSilent_stay lenv ns name s t h hr)
      rounds LogState.init invSilent_init ?_ ?_
    · intro s h hr heq
      have hlt := invSilent_progress lenv ns name data e0 hrecv hopen s h (by simpa using hr)
      rw [heq] at hlt
      exact lt_irrefl _ hlt
    · intro r hr s1
      obtain ⟨h1, h2, h3⟩ := hall r hr
      cases hn : s1.closeNext
      · exact h1
      · exact h2
      · exact h3
    · have : LogState.init.closeRank lenv = lenv.recvMsgs + 17 := by
        simp [LogState.closeRank, LogState.init]; omega
      omega
  · intro sched
    have h := invSilentStatus_run senv kind i e1 hi hrecv1 hno sched
    exact ⟨h.2.1, h.1, hssafe sched⟩
  · intro sched
    obtain ⟨ext, hs⟩ := invSilentStatus_returns senv kind i e1 hi hrecv1 hno _
      (StreamControllerStatus senv kind sched)
      (invSilentStatus_run senv kind i e1 hi hrecv1 hno sched) (le_refl _)
    refine ⟨ext, hsnone _ ?_⟩
    rw [StreamControllerStatus_append]
    exact hs
  · intro rounds hall hlen
    apply hsnone
    refine rounds_return (stepStatus senv kind) InvSilentStatus (StatusState.closeRank senv)
      (fun s => s.returned ≠ none) StatusState.closeNext
      (fun s t h => invSilentStatus_step senv kind i e1 hi hrecv1 hno s t h)
      (fun s t h => invSilentStatus_rank senv kind i e1 hi hrecv1 hno s t h)
      ?_ (fun s t _ hr => invSilentStatus_stay senv kind s t hr)
      rounds StatusState.init invSilentStatus_init ?_ ?_
    · intro s h hr heq
      have hlt := invSilentStatus_progress senv kind i e1 hi hrecv1 s h (by simpa using hr)
      rw [heq] at hlt
      exact lt_irrefl _ hlt
    · intro r hr s1
      obtain ⟨h1, h2⟩ := hall r hr
      have : s1.closeNext = Move.main ∨ s1.closeNext = Move.watcher := by
        unfold StatusState.closeNext
        split <;> simp
      rcases this with h | h <;> rw [h]
      · exact h1
      · exact h2
    · have : StatusState.init.closeRank senv = senv.recvMsgs + senv.nots.length + 12 := by
        simp [StatusState.closeRank, StatusState.init]; omega
      omega

/-- C2, amended, at a close frame that arrives right after the session starts,
for a pod that logs nothing and for a watch on deployments that only reports
an add: nothing is ever written, and after 17 rounds of caller, pump and
watcher (13 rounds of informer, watcher and caller for the watch) the call has
returned nil. -/
theorem client_close_is_not_an_error_witness :
    ((∀ sched, (GetPodLogs (LogEnv.ofStream [] .pending (some (.other "close 1000 (normal)")) [])
          "default" "web" sched).written = [])
      ∧ (GetPodLogs (LogEnv.ofStream [] .pending (some (.other "close 1000 (normal)")) [])
          "default" "web"
          (List.replicate 17 [Task.main, Task.pump, Task.watcher]).flatten).returned = some none)
    ∧ ((∀ sched, (StreamControllerStatus
          (StatusEnv.ofNots [.add "d1"] (some (.other "close 1000 (normal)")) [])
          "Deployment" sched).written = [])
      ∧ (StreamControllerStatus
          (StatusEnv.ofNots [.add "d1"] (some (.other "close 1000 (normal)")) [])
          "Deployment"
          (List.replicate 13 [Move.informer, Move.watcher, Move.main]).flatten).returned
        = some none) :=
  have h := client_close_is_not_an_error
    (LogEnv.ofStream [] .pending (some (.other "close 1000 (normal)")) []) "default" "web" []
    (.other "close 1000 (normal)")
    (StatusEnv.ofNots [.add "d1"] (some (.other "close 1000 (normal)")) []) "Deployment"
    (.other "close 1000 (normal)") rfl rfl (by decide) (by decide) rfl
    (fun o n hmem => by simp [StatusEnv.ofNots] at hmem)
  ⟨⟨fun sched => (h.1.1 sched).1,
    h.1.2.2 (List.replicate 17 [Task.main, Task.pump, Task.watcher])
      (fun r hr => by rw [List.eq_of_mem_replicate hr]; decide) (by decide)⟩,
   ⟨fun sched => (h.2.1 sched).1,
    h.2.2.2 (List.replicate 13 [Move.informer, Move.watcher, Move.main])
      (fun r hr => by rw [List.eq_of_mem_replicate hr]; decide) (by decide)⟩⟩


end Porter
